import Mathlib

/-!
Verification of the shekelsync reconciliation engine
(`scripts/account_pairing_lab.py`, `scripts/match_cc_transactions.py`).

Modelling conventions, used throughout:

* Monetary amounts (Python floats) are modelled as exact rationals `ℚ`.
  The cosmetic `round(x, 2)` that the scripts apply when *formatting* a
  value into an output dict is elided: all comparisons in the source are
  made on the unrounded values, and the spec never mentions rounding.
* Calendar dates are modelled as year/month/day triples.  The scripts
  compare dates via ISO-8601 strings (`substr(t.date, 1, 10)`,
  `strftime('%Y-%m-%d')`) and subtract them via `datetime`/`timedelta`;
  on valid dates both coincide with comparison/subtraction of day
  numbers, which we compute with the standard civil-calendar formula
  (`Date.toRata`).  Intra-day time components, which the scripts discard
  when bucketing, are not modelled.
* SQL queries are translated into filters/folds over snapshot lists of
  row records.  The two category predicates that the SQL evaluates via
  joins against the external category table (`build_category_predicates`
  and the `cc_fees` category test) are modelled as boolean fields of the
  row record, since the category taxonomy lives in external storage.
  `GROUP BY` and Python `dict` grouping are modelled as insertion-ordered
  association lists; where SQL leaves an order unspecified (`GROUP BY`
  output order, `ORDER BY` ties) a deterministic order is chosen — no
  theorem below depends on the choice.
* Python truthiness tests on nullable strings (`if cc_account_number:`)
  are modelled by `truthy`, which collapses the empty string to `none`.
-/

set_option maxRecDepth 40000

namespace ShekelSync

/-! ### Calendar dates -/

/-- A calendar date, as the scripts see one after `substr(date, 1, 10)`. -/
structure Date where
  year : Int
  month : Int
  day : Int
deriving DecidableEq, Repr

/-- `calendar.isleap` (proleptic Gregorian). -/
def isLeapYear (y : Int) : Bool :=
  (y % 4 == 0 && y % 100 != 0) || (y % 400 == 0)

/-- `calendar.monthrange(year, month)[1]`: number of days in the month. -/
def daysInMonth (y m : Int) : Int :=
  if m == 2 then (if isLeapYear y then 29 else 28)
  else if m == 4 || m == 6 || m == 9 || m == 11 then 30
  else 31

/-- Day number of a date (Julian day number of the proleptic Gregorian
date).  Date subtraction `(a - b).days` of the scripts is
`a.toRata - b.toRata`, and ISO-string comparison of valid dates is
comparison of `toRata`. -/
def Date.toRata (d : Date) : Int :=
  let a := (14 - d.month).fdiv 12
  let y := d.year + 4800 - a
  let m := d.month + 12 * a - 3
  d.day + (153 * m + 2).fdiv 5 + 365 * y + y.fdiv 4 - y.fdiv 100 + y.fdiv 400 - 32045

/-- `subtract_calendar_months` from `account_pairing_lab.py`. -/
def subtractCalendarMonths (anchor : Date) (months : Nat) : Date :=
  if months == 0 then anchor
  else
    let month0 : Int := (anchor.year * 12 + (anchor.month - 1)) - months
    let year := month0.fdiv 12
    let month := month0.emod 12 + 1
    let day := min anchor.day (daysInMonth year month)
    ⟨year, month, day⟩

/-! ### Text evidence extraction -/

/-- Case-sensitive substring test (`pat in s` in Python, `LIKE` with a
literal pattern in SQL). -/
def containsSub (s pat : String) : Bool :=
  decide (pat.data <:+: s.data)

/-- Lower-cased character list of a string (`str.lower()` at the
character level; Hebrew characters are fixed points). -/
def lowerChars (s : String) : List Char :=
  s.data.map Char.toLower

/-- Case-insensitive substring test (`pat.lower() in s.lower()`). -/
def containsSubCI (s pat : String) : Bool :=
  decide (lowerChars pat <:+: lowerChars s)

/-- Python truthiness of a nullable string: `None` and `""` are falsy. -/
def truthy : Option String → Option String
  | none => none
  | some s => if s = "" then none else some s

/-- The fixed `VENDOR_KEYWORDS` table of `account_pairing_lab.py`. -/
def VENDOR_KEYWORDS : List (String × List String) :=
  [ ("max", ["מקס", "max"]),
    ("visaCal", ["כ.א.ל", "cal", "ויזה כאל", "visa cal"]),
    ("isracard", ["ישראכרט", "isracard"]),
    ("amex", ["אמקס", "אמריקן אקספרס", "amex", "american express"]),
    ("leumi", ["לאומי כרט", "leumi card"]),
    ("diners", ["דיינרס", "diners"]) ]

/-- `VENDOR_KEYWORDS.get(vendor, [])`. -/
def vendorKeywords (v : String) : List String :=
  match VENDOR_KEYWORDS.find? (fun p => p.1 = v) with
  | some p => p.2
  | none => []

/-- `name_contains_vendor`: some keyword of the card vendor occurs in
the (lower-cased) name.  Empty name or vendor yields `false`. -/
def nameContainsVendor (name : String) (ccVendor : String) : Bool :=
  if name = "" || ccVendor = "" then false
  else (vendorKeywords ccVendor).any (fun kw => containsSubCI name kw)

/-- `str.strip()` at the character level. -/
def trimChars (l : List Char) : List Char :=
  ((l.dropWhile (fun c => c.isWhitespace)).reverse.dropWhile
    (fun c => c.isWhitespace)).reverse

/-- `get_account_last4`: trailing 4 characters of the trimmed account
number; the whole string if it is 4 characters or shorter; `None` for a
missing or blank account number. -/
def getAccountLast4 (acc : Option String) : Option String :=
  match acc with
  | none => none
  | some s =>
    let t := trimChars s.data
    if t = [] then none
    else some (String.mk (if 4 < t.length then t.drop (t.length - 4) else t))

/-- Maximal runs of digit characters in a character list
(`re.findall(r"\d{4,}", text)` keeps those of length ≥ 4). -/
def digitRuns : List Char → List Char → List (List Char)
  | acc, [] => if acc = [] then [] else [acc.reverse]
  | acc, c :: rest =>
    if c.isDigit then digitRuns (c :: acc) rest
    else (if acc = [] then [] else [acc.reverse]) ++ digitRuns [] rest

/-- First-seen-order deduplication of a string list. -/
def dedupFirstSeen : List String → List String → List String
  | _, [] => []
  | seen, x :: rest =>
    if seen.contains x then dedupFirstSeen seen rest
    else x :: dedupFirstSeen (x :: seen) rest

/-- `extract_digit_sequences`: every digit run of length ≥ 4 together
with the trailing 4 digits of each longer run.  The Python version
returns `sorted(set(...))`; only membership in the result is ever used,
so we keep first-seen order instead of sorting. -/
def extractDigitSequences (s : String) : List String :=
  let runs := (digitRuns [] s.data).filter (fun r => 4 ≤ r.length)
  let withLast4 := runs.foldr
    (fun r acc =>
      String.mk r ::
        ((if 4 < r.length then [String.mk (r.drop (r.length - 4))] else []) ++ acc))
    []
  dedupFirstSeen [] withLast4

/-- First-seen deduplication that also drops empty strings
(the `if not p: continue` step of `build_match_patterns`). -/
def dedupNonEmpty : List String → List String → List String
  | _, [] => []
  | seen, x :: rest =>
    if x = "" then dedupNonEmpty seen rest
    else if seen.contains x then dedupNonEmpty seen rest
    else x :: dedupNonEmpty (x :: seen) rest

/-- `build_match_patterns`: vendor keywords, then the account number,
then its last-4 when distinct, deduplicated in first-seen order. -/
def buildMatchPatterns (ccVendor : String) (ccAccount : Option String) : List String :=
  let base := vendorKeywords ccVendor ++
    (match truthy ccAccount with
     | none => []
     | some acc =>
       acc :: (match getAccountLast4 (some acc) with
               | some l4 => if l4 ≠ acc then [l4] else []
               | none => []))
  dedupNonEmpty [] base

/-! ### Bank Account Discoverer (`find_best_bank_account_app`)

The SQL prefilter (non-card vendors, negative amount, repayment
category, optional bank filters, `ORDER BY date DESC LIMIT n`) runs in
external storage; the embedding takes the resulting `rows` list as
input, exactly the `rows` variable of the source. -/

/-- A row of the repayment-candidate query in
`find_best_bank_account_app`. -/
structure BankRow where
  identifier : String
  vendor : String
  accountNumber : Option String
  name : String
  price : ℚ
  date : String
deriving DecidableEq, Repr

/-- One entry of the `groups` dict: a (bank vendor, bank account)
group with its transactions and evidence counters. -/
structure BankGroup where
  bankVendor : String
  bankAccountNumber : Option String
  transactions : List BankRow
  matchingLast4Count : Nat
  matchingVendorCount : Nat
deriving DecidableEq, Repr

/-- `bool(cc_last4 and name and cc_last4 in name)`. -/
def nameContainsLast4 (ccLast4 : Option String) (name : String) : Bool :=
  match ccLast4 with
  | some l4 => name ≠ "" && containsSub name l4
  | none => false

/-- Add one row to the insertion-ordered group list
(`groups.setdefault` followed by the counter updates). -/
def addRowToGroups (ccLast4 : Option String) (ccVendor : String) :
    List BankGroup → BankRow → List BankGroup
  | [], row =>
    [{ bankVendor := row.vendor, bankAccountNumber := row.accountNumber,
       transactions := [row],
       matchingLast4Count := if nameContainsLast4 ccLast4 row.name then 1 else 0,
       matchingVendorCount := if nameContainsVendor row.name ccVendor then 1 else 0 }]
  | g :: rest, row =>
    if g.bankVendor = row.vendor ∧ g.bankAccountNumber = row.accountNumber then
      { g with
        transactions := g.transactions ++ [row],
        matchingLast4Count :=
          g.matchingLast4Count + (if nameContainsLast4 ccLast4 row.name then 1 else 0),
        matchingVendorCount :=
          g.matchingVendorCount + (if nameContainsVendor row.name ccVendor then 1 else 0) }
        :: rest
    else g :: addRowToGroups ccLast4 ccVendor rest row

/-- The `groups` dict of `find_best_bank_account_app`, in key
insertion order. -/
def discGroups (ccLast4 : Option String) (ccVendor : String) (rows : List BankRow) :
    List BankGroup :=
  rows.foldl (addRowToGroups ccLast4 ccVendor) []

/-- The ranking key `(matchingLast4Count, matchingVendorCount,
len(transactions))`. -/
def groupKey (g : BankGroup) : Nat × Nat × Nat :=
  (g.matchingLast4Count, g.matchingVendorCount, g.transactions.length)

/-- Lexicographic order on ranking keys. -/
def lexLe3 (a b : Nat × Nat × Nat) : Prop :=
  a.1 < b.1 ∨ (a.1 = b.1 ∧ (a.2.1 < b.2.1 ∨ (a.2.1 = b.2.1 ∧ a.2.2 ≤ b.2.2)))

instance : DecidableRel lexLe3 := fun a b => by
  unfold lexLe3; infer_instance

/-- The descending ranking relation used to sort candidates
(`sort(key=..., reverse=True)`). -/
def rankGE (g h : BankGroup) : Prop := lexLe3 (groupKey h) (groupKey g)

instance : DecidableRel rankGE := fun g h => by
  unfold rankGE; infer_instance

instance : IsTotal BankGroup rankGE := by
  constructor
  intro a b
  unfold rankGE lexLe3
  omega

instance : IsTrans BankGroup rankGE := by
  constructor
  intro a b c hab hbc
  unfold rankGE lexLe3 at *
  omega

/-- The surviving candidate groups (both-zero groups discarded). -/
def discCandidates (ccLast4 : Option String) (ccVendor : String) (rows : List BankRow) :
    List BankGroup :=
  (discGroups ccLast4 ccVendor rows).filter
    (fun g => 0 < g.matchingLast4Count ∨ 0 < g.matchingVendorCount)

/-- Candidates ranked in descending `(last4, vendor, count)` order. -/
def discRanked (ccLast4 : Option String) (ccVendor : String) (rows : List BankRow) :
    List BankGroup :=
  List.insertionSort rankGE (discCandidates ccLast4 ccVendor rows)

/-- Up to three sample transactions of the best group: those whose name
individually carries last-4 or vendor evidence. -/
def sampleTxns (ccLast4 : Option String) (ccVendor : String) (txns : List BankRow) :
    List (String × ℚ × String) :=
  ((txns.filter (fun t =>
      nameContainsLast4 ccLast4 t.name || nameContainsVendor t.name ccVendor)).take 3).map
    (fun t => (t.name, t.price, t.date))

/-- The result of `find_best_bank_account_app`. -/
inductive DiscoverResult where
  | notFound (reason : String)
  | found (bankVendor : String) (bankAccountNumber : Option String)
      (transactionCount matchingLast4Count matchingVendorCount : Nat)
      (matchPatterns : List String)
      (sampleTransactions : List (String × ℚ × String))
      (otherCandidates : List (String × Option String × Nat))
deriving DecidableEq, Repr

/-- `find_best_bank_account_app` over the fetched rows.  A missing
credit-card vendor raises `ValueError` (`Except.error`). -/
def findBestBankAccountApp (ccVendor : String) (ccAccount : Option String)
    (rows : List BankRow) : Except String DiscoverResult :=
  if ccVendor = "" then .error "credit_card_vendor is required"
  else
    let ccLast4 := getAccountLast4 ccAccount
    if rows = [] then .ok (.notFound "No bank repayment transactions found")
    else
      match discRanked ccLast4 ccVendor rows with
      | [] =>
        let l4str := match ccLast4 with | some s => s | none => "unknown"
        .ok (.notFound
          ("No bank repayments reference this credit card (last4: " ++ l4str ++ ")"))
      | best :: restRanked =>
        .ok (.found best.bankVendor best.bankAccountNumber
          best.transactions.length best.matchingLast4Count best.matchingVendorCount
          (buildMatchPatterns ccVendor ccAccount)
          (sampleTxns ccLast4 ccVendor best.transactions)
          ((restRanked.take 2).map
            (fun c => (c.bankVendor, c.bankAccountNumber, c.transactions.length))))

/-! ### Cycle Discrepancy Classifier (`calculate_discrepancy_app`) -/

/-- `EPSILON = 1.0`. -/
def EPSILON : ℚ := 1
/-- `MAX_FEE_AMOUNT = 200.0`. -/
def MAX_FEE_AMOUNT : ℚ := 200
/-- `EARLY_GRACE_DAYS = 14`. -/
def EARLY_GRACE_DAYS : Int := 14
/-- `RECENT_GRACE_DAYS = 14`. -/
def RECENT_GRACE_DAYS : Int := 14
/-- The actionable status set. -/
def actionableStatuses : List String :=
  ["fee_candidate", "large_discrepancy", "cc_over_bank", "missing_cc_cycle"]

/-- A credit-card-side transaction row as the classifier's per-date
query sees it.  `billingDate` is `substr(COALESCE(processed_date, date),
1, 10)`; `isCardFeesCategory` models `category_definition_id =
cc_fees_category_id` (identically false when the fees category is
absent from the taxonomy, matching the `-1` sentinel). -/
structure CCTxn where
  vendor : String
  accountNumber : Option String
  billingDate : Date
  name : String
  price : ℚ
  statusCompleted : Bool
  isCardFeesCategory : Bool
deriving DecidableEq, Repr

/-- The `CASE` expression of the per-date billing query: a card-fee
transaction whose name indicates a fee waiver/discount contributes its
(negative) price, every other row contributes its negated price. -/
def ccCaseAmount (t : CCTxn) : ℚ :=
  if t.isCardFeesCategory ∧ t.price < 0 ∧ containsSubCI t.name "דמי כרטיס" ∧
      (containsSubCI t.name "פטור" ∨ containsSubCI t.name "הנחה")
  then t.price else -t.price

/-- The optional `AND t.account_number = ?` filter: trivially true when
no (truthy) account number is configured. -/
def accountFilter (acc : Option String) (txnAcc : Option String) : Bool :=
  match truthy acc with
  | some a => txnAcc = some a
  | none => true

/-- The completed card transactions billed on `d` (with the
`account_number` filter when a card account is configured). -/
def ccTxnsOn (ccTxns : List CCTxn) (ccVendor : String) (ccAccount : Option String)
    (d : Date) : List CCTxn :=
  ccTxns.filter (fun t =>
    decide (t.vendor = ccVendor) && t.statusCompleted && decide (t.billingDate = d) &&
    accountFilter ccAccount t.accountNumber)

/-- One `GROUP BY account_number` row of the per-date billing query. -/
structure CCRow where
  accountNumber : Option String
  total : ℚ
  txnCount : Nat
deriving DecidableEq, Repr

/-- Fold one transaction into the insertion-ordered group list. -/
def addCCToGroups : List CCRow → CCTxn → List CCRow
  | [], t => [⟨t.accountNumber, ccCaseAmount t, 1⟩]
  | g :: rest, t =>
    if g.accountNumber = t.accountNumber then
      ⟨g.accountNumber, g.total + ccCaseAmount t, g.txnCount + 1⟩ :: rest
    else g :: addCCToGroups rest t

/-- The `cc_rows` result of the per-date billing query (groups in
first-seen order; SQL leaves the `GROUP BY` output order unspecified
and no theorem depends on it). -/
def ccRowsForDate (ccTxns : List CCTxn) (ccVendor : String) (ccAccount : Option String)
    (d : Date) : List CCRow :=
  (ccTxnsOn ccTxns ccVendor ccAccount d).foldl addCCToGroups []

/-- A bank-side transaction row.  `date` is `substr(t.date, 1, 10)`;
`isRepaymentCategory` models the multi-locale repayment-category
predicate of `build_category_predicates`, which the SQL evaluates by
joining the external category table. -/
structure BankTxn where
  identifier : String
  vendor : String
  accountNumber : Option String
  date : Date
  name : String
  price : ℚ
  statusCompleted : Bool
  isRepaymentCategory : Bool
deriving DecidableEq, Repr

/-- The bank repayment query: vendor, window, completed, outgoing,
repayment category, optional account filter, newest first, `LIMIT`. -/
def bankRepaymentRows (bankTxns : List BankTxn) (bankVendor : String)
    (bankAccount : Option String) (startD endD : Date) (limit : Nat) : List BankTxn :=
  (List.insertionSort (fun a b : BankTxn => b.date.toRata < a.date.toRata)
    (bankTxns.filter (fun t =>
      decide (t.vendor = bankVendor) &&
      decide (startD.toRata ≤ t.date.toRata) && decide (t.date.toRata ≤ endD.toRata) &&
      t.statusCompleted && decide (t.price < 0) && t.isRepaymentCategory &&
      accountFilter bankAccount t.accountNumber))).take limit

/-- `repayment_matches_cc`: the bank row's name carries the card's
last-4 or a card vendor keyword. -/
def repaymentMatchesCC (ccLast4 : Option String) (ccKeywords : List String)
    (name : String) : Bool :=
  if name = "" then false
  else if (match ccLast4 with | some l4 => containsSub name l4 | none => false) then true
  else ccKeywords.any (fun kw => containsSubCI name kw)

/-- Fold one bank row into the insertion-ordered date-bucket list
(the `repayments_by_date` dict). -/
def addToDateBucket : List (Date × List BankTxn) → BankTxn → List (Date × List BankTxn)
  | [], r => [(r.date, [r])]
  | (d, rs) :: rest, r =>
    if d = r.date then (d, rs ++ [r]) :: rest
    else (d, rs) :: addToDateBucket rest r

/-- `repayments_by_date` in key insertion order. -/
def groupByDate (rows : List BankTxn) : List (Date × List BankTxn) :=
  rows.foldl addToDateBucket []

/-- Earliest card billing date (`get_cc_earliest_cycle_date`):
minimum billing date over completed outgoing card rows, excluding
card-fee rows, with the account filter when configured. -/
def getCCEarliestCycleDate (ccTxns : List CCTxn) (ccVendor : String)
    (ccAccount : Option String) : Option Date :=
  (ccTxns.filter (fun t =>
    decide (t.vendor = ccVendor) && t.statusCompleted && decide (t.price < (0 : ℚ)) &&
    accountFilter ccAccount t.accountNumber &&
    !t.isCardFeesCategory)).foldl
    (fun acc t =>
      match acc with
      | none => some t.billingDate
      | some d => if t.billingDate.toRata < d.toRata then some t.billingDate else some d)
    none

/-- A per-date cycle record.  `bankTotal`, `ccTotal` and `difference`
are kept unrounded (see the file header). -/
structure Cycle where
  cycleDate : Date
  bankTotal : ℚ
  ccTotal : Option ℚ
  difference : Option ℚ
  repayments : List BankTxn
  status : String
  matchedAccount : Option String
deriving DecidableEq, Repr

/-- The classifier's loop over `cc_rows`: break to `matched` on an
epsilon match, remember the latest fee-candidate row otherwise. -/
def classifyLoop (bankTotal : ℚ) :
    String × Option ℚ × Option String → List CCRow → String × Option ℚ × Option String
  | st, [] => st
  | st, r :: rest =>
    let rowTotal := max 0 r.total
    let diffAbs := |bankTotal - rowTotal|
    if diffAbs ≤ EPSILON then ("matched", some rowTotal, r.accountNumber)
    else if diffAbs ≤ MAX_FEE_AMOUNT ∧ EPSILON < diffAbs ∧ rowTotal < bankTotal then
      classifyLoop bankTotal ("fee_candidate", some rowTotal, r.accountNumber) rest
    else classifyLoop bankTotal st rest

/-- The explicit-account fallback of the classifier (lines 786–800):
when the loop left the cycle `missing_cc_cycle` and a card account
number is configured, classify the paired account\'s row directly. -/
def classifyFallback (bankTotal : ℚ) (ccRows : List CCRow) (acc : String)
    (st : String × Option ℚ × Option String) : String × Option ℚ × Option String :=
  match ccRows.find? (fun r => (r.accountNumber.getD "") = acc) with
  | none => st
  | some r =>
    if |bankTotal - max 0 r.total| ≤ EPSILON then
      ("matched", some (max 0 r.total), some acc)
    else if 0 < bankTotal - max 0 r.total ∧ bankTotal - max 0 r.total ≤ MAX_FEE_AMOUNT then
      ("fee_candidate", some (max 0 r.total), some acc)
    else if MAX_FEE_AMOUNT < bankTotal - max 0 r.total then
      ("large_discrepancy", some (max 0 r.total), some acc)
    else ("cc_over_bank", some (max 0 r.total), some acc)

/-- Classification of one cycle date from its billing rows: the loop,
then the explicit-account fallback when the loop left the cycle
`missing_cc_cycle` and a card account number is configured. -/
def classifyForDate (bankTotal : ℚ) (ccRows : List CCRow) (ccAccount : Option String) :
    String × Option ℚ × Option String :=
  if ccRows = [] then ("missing_cc_cycle", none, none)
  else if (classifyLoop bankTotal ("missing_cc_cycle", none, none) ccRows).1 =
      "missing_cc_cycle" then
    match truthy ccAccount with
    | none => classifyLoop bankTotal ("missing_cc_cycle", none, none) ccRows
    | some acc => classifyFallback bankTotal ccRows acc
        (classifyLoop bankTotal ("missing_cc_cycle", none, none) ccRows)
  else classifyLoop bankTotal ("missing_cc_cycle", none, none) ccRows

/-- Build one cycle record from a date bucket. -/
def mkCycle (ccTxns : List CCTxn) (ccVendor : String) (ccAccount : Option String)
    (dateKey : Date) (bucket : List BankTxn) : Cycle :=
  let bankTotal := bucket.foldl (fun s r => s + |r.price|) 0
  let rows := ccRowsForDate ccTxns ccVendor ccAccount dateKey
  let st := classifyForDate bankTotal rows ccAccount
  { cycleDate := dateKey, bankTotal := bankTotal, ccTotal := st.2.1,
    difference := st.2.1.map (fun c => bankTotal - c), repayments := bucket,
    status := st.1, matchedAccount := st.2.2 }

/-- The grace-period relabelling applied to one cycle — the loop body of
lines 818–832 of `account_pairing_lab.py`, and identically the inline
`if`/`elif` of the allocator (lines 1116–1126): an actionable cycle
dated at most `EARLY_GRACE_DAYS` after the earliest card activity, or
between `RECENT_GRACE_DAYS` before "today" and "today", becomes
`incomplete_history`; other cycles are untouched. -/
def earlyGraceHit (earliest : Option Date) (cycleDate : Date) : Bool :=
  match earliest with
  | some e => decide (cycleDate.toRata - e.toRata ≤ EARLY_GRACE_DAYS)
  | none => false

/-- See `earlyGraceHit` above: the relabelling applied to one cycle. -/
def applyGrace (earliest : Option Date) (today : Date) (c : Cycle) : Cycle :=
  if c.status ∈ actionableStatuses then
    if earlyGraceHit earliest c.cycleDate then
      { c with status := "incomplete_history" }
    else if 0 ≤ today.toRata - c.cycleDate.toRata ∧
        today.toRata - c.cycleDate.toRata ≤ RECENT_GRACE_DAYS then
      { c with status := "incomplete_history" }
    else c
  else c

/-- Aggregate block of a discrepancy result (unrounded; see header). -/
structure Aggregate where
  totalBankRepayments : ℚ
  totalCCExpenses : ℚ
  difference : ℚ
  differencePercentage : ℚ
  matchedCycleCount : Nat
  totalCycles : Nat
deriving DecidableEq, Repr

/-- Result of `calculate_discrepancy_app`: the two early returns carry
no aggregate block (`aggregate = none`). -/
structure DiscrepancyResult where
  existsFlag : Bool
  acknowledged : Bool
  reason : Option String
  aggregate : Option Aggregate
  cycles : List Cycle
deriving DecidableEq, Repr

/-- The `comparable` cycle list of the aggregation step: cycles with a
known cc total that are not flagged `incomplete_history`. -/
def comparableCycles (cycles : List Cycle) : List Cycle :=
  cycles.filter (fun c => c.ccTotal.isSome ∧ c.status ≠ "incomplete_history")

/-- Sum of bank totals of a cycle list. -/
def sumBank (cycles : List Cycle) : ℚ :=
  cycles.foldl (fun s c => s + c.bankTotal) 0

/-- Sum of cc totals of a cycle list (`or 0` for missing totals, as in
the source; the aggregation only ever applies this to cycles whose cc
total is present). -/
def sumCC (cycles : List Cycle) : ℚ :=
  cycles.foldl (fun s c => s + (c.ccTotal.getD 0)) 0

/-- The `matching_repayments` list of `calculate_discrepancy_app`:
fetched bank repayment rows whose name matches the card. -/
def discMatching (bankTxns : List BankTxn) (bankVendor : String)
    (bankAccount : Option String) (ccVendor : String) (ccAccount : Option String)
    (today : Date) (monthsBack : Nat) (limit : Nat) : List BankTxn :=
  let startD := subtractCalendarMonths today monthsBack
  (bankRepaymentRows bankTxns bankVendor bankAccount startD today limit).filter
    (fun r => repaymentMatchesCC (getAccountLast4 ccAccount) (vendorKeywords ccVendor) r.name)

/-- The classifier's cycle list: date buckets classified by `mkCycle`,
sorted newest first, then grace-relabelled. -/
def discCycles (bankTxns : List BankTxn) (ccTxns : List CCTxn) (bankVendor : String)
    (bankAccount : Option String) (ccVendor : String) (ccAccount : Option String)
    (today : Date) (monthsBack : Nat) (limit : Nat) : List Cycle :=
  let matching := discMatching bankTxns bankVendor bankAccount ccVendor ccAccount
    today monthsBack limit
  let cycles0 := (groupByDate matching).map (fun b => mkCycle ccTxns ccVendor ccAccount b.1 b.2)
  (List.insertionSort (fun a b : Cycle => b.cycleDate.toRata < a.cycleDate.toRata)
    cycles0).map (applyGrace (getCCEarliestCycleDate ccTxns ccVendor ccAccount) today)

/-- The aggregation block over a final cycle list (`comparable` cycles,
totals, percentage, counts) — lines 834–852, mirrored verbatim by the
allocator's per-pairing assembly (lines 1146–1166). -/
def mkAggregate (cycles : List Cycle) : Aggregate :=
  let comp := comparableCycles cycles
  let totalBank := sumBank comp
  let totalCC := sumCC comp
  { totalBankRepayments := totalBank, totalCCExpenses := totalCC,
    difference := totalBank - totalCC,
    differencePercentage := if 0 < totalCC then (totalBank - totalCC) / totalCC * 100 else 0,
    matchedCycleCount := (cycles.filter (fun c => c.status = "matched")).length,
    totalCycles := cycles.length }

/-- `calculate_discrepancy_app`.  Inputs: the two transaction
snapshots, the pairing's identities, the acknowledgement flag read from
the pairing row, "today", the window length and the query `LIMIT`. -/
def calculateDiscrepancyApp (bankTxns : List BankTxn) (ccTxns : List CCTxn)
    (bankVendor : String) (bankAccount : Option String)
    (ccVendor : String) (ccAccount : Option String)
    (acknowledged : Bool) (today : Date) (monthsBack : Nat) (limit : Nat) :
    DiscrepancyResult :=
  if bankVendor = "" ∨ ccVendor = "" then
    { existsFlag := false, acknowledged := false, reason := none,
      aggregate := none, cycles := [] }
  else if discMatching bankTxns bankVendor bankAccount ccVendor ccAccount
      today monthsBack limit = [] then
    let l4str := match getAccountLast4 ccAccount with | some s => s | none => ""
    { existsFlag := false, acknowledged := acknowledged,
      reason := some ("No bank repayments found matching this credit card (" ++
        ccVendor ++ " " ++ l4str ++ ")"),
      aggregate := none, cycles := [] }
  else
    let cycles := discCycles bankTxns ccTxns bankVendor bankAccount ccVendor ccAccount
      today monthsBack limit
    let hasDiscrepancy := cycles.any (fun c => c.status ∈ actionableStatuses)
    { existsFlag := hasDiscrepancy && !acknowledged,
      acknowledged := acknowledged, reason := none,
      aggregate := some (mkAggregate cycles),
      cycles := cycles }

/-! ### Bank-Group Allocator (`calculate_discrepancies_app_for_bank_group`) -/

/-- An `account_pairings` row. -/
structure Pairing where
  id : Int
  creditCardVendor : String
  creditCardAccountNumber : Option String
  bankVendor : String
  bankAccountNumber : Option String
  matchPatterns : List String
  isActive : Bool
  discrepancyAcknowledged : Bool
deriving DecidableEq, Repr

/-- `repayment_name_match_strength`: 2 when a digit hint equals the
card's account number or its last-4, 1 on a vendor-keyword match, 0
otherwise. -/
def repaymentNameMatchStrength (p : Pairing) (name : String) : Nat :=
  let hints := extractDigitSequences name
  let ccLast4 := getAccountLast4 p.creditCardAccountNumber
  if (match truthy p.creditCardAccountNumber with
      | some acc => hints.contains acc
      | none => false) then 2
  else if (match ccLast4 with
           | some l4 => hints.contains l4
           | none => false) then 2
  else if nameContainsVendor name p.creditCardVendor then 1
  else 0

/-- `get_cc_totals_for_date_range(...).get(d)`: the clamped case-summed
billing total for `d`, present exactly when some completed card row is
billed on `d` within the range. -/
def ccTotalInRange (ccTxns : List CCTxn) (ccVendor : String) (ccAccount : Option String)
    (startD endD : Date) (d : Date) : Option ℚ :=
  if startD.toRata ≤ d.toRata ∧ d.toRata ≤ endD.toRata then
    let ts := ccTxnsOn ccTxns ccVendor ccAccount d
    if ts = [] then none
    else some (max 0 (ts.foldl (fun s t => s + ccCaseAmount t) 0))
  else none

/-- Insertion-ordered Python-`dict` update: overwrite the entry when
the key exists, append otherwise. -/
def dictSet {α : Type} (l : List (Int × α)) (k : Int) (v : α) : List (Int × α) :=
  if l.any (fun p => p.1 = k) then
    l.map (fun p => if p.1 = k then (k, v) else p)
  else l ++ [(k, v)]

/-- `dict.get(k, 0.0)` on the running-total dict. -/
def lookupTotal (l : List (Int × ℚ)) (k : Int) : ℚ :=
  match l.find? (fun p => p.1 = k) with
  | some p => p.2
  | none => 0

/-- `dict.get(k, [])` on the assigned-transaction dict. -/
def lookupTxns (l : List (Int × List BankTxn)) (k : Int) : List BankTxn :=
  match l.find? (fun p => p.1 = k) with
  | some p => p.2
  | none => []

/-- Allocation state for one repayment date bucket. -/
structure AllocState where
  totals : List (Int × ℚ)
  txns : List (Int × List BankTxn)
  unassigned : List BankTxn
deriving DecidableEq, Repr

/-- The candidate set and signal flag for one repayment: strength-2
pairings if any, else strength-1 pairings, else all pairings with no
signal. -/
def allocCandidates (pairings : List Pairing) (name : String) : List Pairing × Bool :=
  let digitCandidates := pairings.filter (fun p => repaymentNameMatchStrength p name = 2)
  let vendorCandidates := pairings.filter (fun p => repaymentNameMatchStrength p name = 1)
  if digitCandidates ≠ [] then (digitCandidates, true)
  else if vendorCandidates ≠ [] then (vendorCandidates, true)
  else (pairings, false)

/-- The best-completion scan over the candidates: the first candidate
with a known billed total whose running total plus this amount comes
strictly closest to it. -/
def bestCompletion (ccTotals : Int → Date → Option ℚ) (dateKey : Date)
    (totals : List (Int × ℚ)) (amount : ℚ) : List Pairing → Option (Pairing × ℚ)
  | [] => none
  | cand :: rest =>
    let acc := bestCompletion ccTotals dateKey totals amount rest
    match ccTotals cand.id dateKey with
    | none => acc
    | some ccT =>
      let newDiff := |(lookupTotal totals cand.id + amount) - ccT|
      match acc with
      | none => some (cand, newDiff)
      | some (b, bd) => if newDiff < bd then some (cand, newDiff) else some (b, bd)

/-- One step of the greedy allocation loop (lines 1035–1080). -/
def allocStep (pairings : List Pairing) (ccTotals : Int → Date → Option ℚ)
    (dateKey : Date) (st : AllocState) (r : BankTxn) : AllocState :=
  let amount := |r.price|
  let cands := allocCandidates pairings r.name
  let assign := fun (p : Pairing) =>
    { st with
      totals := dictSet st.totals p.id (lookupTotal st.totals p.id + amount),
      txns := dictSet st.txns p.id (lookupTxns st.txns p.id ++ [r]) }
  match bestCompletion ccTotals dateKey st.totals amount cands.1 with
  | none =>
    if !cands.2 then { st with unassigned := st.unassigned ++ [r] }
    else
      match cands.1 with
      | [] => { st with unassigned := st.unassigned ++ [r] }
      | c :: _ => assign c
  | some (b, bd) =>
    if !cands.2 ∧ EPSILON < bd then { st with unassigned := st.unassigned ++ [r] }
    else assign b

/-- Allocation of one date bucket: repayments processed
largest-amount-first over zero-initialised per-pairing dicts.  (Python's
sort is stable; the strict relation below preserves input order on
ties.) -/
def allocateDate (pairings : List Pairing) (ccTotals : Int → Date → Option ℚ)
    (dateKey : Date) (repayments : List BankTxn) : AllocState :=
  let sorted := List.insertionSort (fun a b : BankTxn => |b.price| < |a.price|) repayments
  let totals0 := pairings.foldl (fun d p => dictSet d p.id (0 : ℚ)) []
  let txns0 := pairings.foldl (fun d p => dictSet d p.id ([] : List BankTxn)) []
  sorted.foldl (allocStep pairings ccTotals dateKey) ⟨totals0, txns0, []⟩

/-- Classification of one allocated pairing-date (lines
1091–1138): skip zero totals, classify against the pairing's billed
total for the date, then apply the grace relabelling. -/
def mkAllocCycle (p : Pairing) (ccTotals : Int → Date → Option ℚ)
    (earliest : Option Date) (today : Date) (dateKey : Date) (st : AllocState) :
    Option Cycle :=
  let bankTotal := lookupTotal st.totals p.id
  if bankTotal ≤ 0 then none
  else
    let ccTotalRaw := ccTotals p.id dateKey
    let stc : String × Option ℚ × Option ℚ :=
      match ccTotalRaw with
      | none => ("missing_cc_cycle", none, none)
      | some ccT =>
        let diff := bankTotal - ccT
        if |diff| ≤ EPSILON then ("matched", some ccT, some diff)
        else if 0 < diff ∧ diff ≤ MAX_FEE_AMOUNT then ("fee_candidate", some ccT, some diff)
        else if MAX_FEE_AMOUNT < diff then ("large_discrepancy", some ccT, some diff)
        else ("cc_over_bank", some ccT, some diff)
    some (applyGrace earliest today
      { cycleDate := dateKey, bankTotal := bankTotal, ccTotal := stc.2.1,
        difference := stc.2.2, repayments := lookupTxns st.txns p.id,
        status := stc.1, matchedAccount := p.creditCardAccountNumber })

/-- Per-pairing discrepancy assembly of the allocator (sort newest
first, aggregate over comparable cycles, acknowledgement from the
pairing row). -/
def allocResultFor (p : Pairing)
    (allocated : List (Date × AllocState)) (ccTotals : Int → Date → Option ℚ)
    (earliest : Option Date) (today : Date) : DiscrepancyResult :=
  let cycles0 := allocated.filterMap (fun b => mkAllocCycle p ccTotals earliest today b.1 b.2)
  let cycles := List.insertionSort
    (fun a b : Cycle => b.cycleDate.toRata < a.cycleDate.toRata) cycles0
  let hasDiscrepancy := cycles.any (fun c => c.status ∈ actionableStatuses)
  let acknowledged := p.discrepancyAcknowledged
  { existsFlag := hasDiscrepancy && !acknowledged,
    acknowledged := acknowledged, reason := none,
    aggregate := some (mkAggregate cycles),
    cycles := cycles }

/-- `calculate_discrepancies_app_for_bank_group`.  Mixed bank
identities raise `ValueError` (`Except.error`) before any per-date work;
an empty pairing list yields the empty dict.  Per-pairing dict lookups
keyed by `pairing.id` use the last pairing with that id, as Python dict
comprehension overwrites do. -/
def calcBankGroup (bankTxns : List BankTxn) (ccTxns : List CCTxn)
    (pairings : List Pairing) (today : Date) (monthsBack : Nat) (limit : Nat) :
    Except String (List (Int × DiscrepancyResult)) :=
  match pairings with
  | [] => .ok []
  | p0 :: rest =>
    if rest.any (fun p =>
        decide (p.bankVendor ≠ p0.bankVendor) ||
        decide (p.bankAccountNumber ≠ p0.bankAccountNumber)) then
      .error "All pairings in a bank group must share bank_vendor + bank_account_number"
    else
      let startD := subtractCalendarMonths today monthsBack
      let rows := bankRepaymentRows bankTxns p0.bankVendor p0.bankAccountNumber
        startD today limit
      let buckets := groupByDate rows
      let ccTotals : Int → Date → Option ℚ := fun pid d =>
        match (pairings.reverse).find? (fun p => p.id = pid) with
        | some p => ccTotalInRange ccTxns p.creditCardVendor p.creditCardAccountNumber
            startD today d
        | none => none
      let earliestOf : Int → Option Date := fun pid =>
        match (pairings.reverse).find? (fun p => p.id = pid) with
        | some p => getCCEarliestCycleDate ccTxns p.creditCardVendor
            p.creditCardAccountNumber
        | none => none
      let allocated := buckets.map (fun b => (b.1, allocateDate pairings ccTotals b.1 b.2))
      .ok (pairings.map (fun p =>
        (p.id, allocResultFor p allocated ccTotals (earliestOf p.id) today)))

/-! ### Transaction-Level Matcher (`match_cc_transactions.py`) -/

/-- A `transactions` row as the matcher sees it.  `isRepaymentCategory`
models the category-name join of the repayments query. -/
structure MTxn where
  identifier : String
  vendor : String
  accountNumber : Option String
  date : Date
  name : String
  price : ℚ
  statusCompleted : Bool
  isRepaymentCategory : Bool
deriving DecidableEq, Repr

/-- One emitted expense↔repayment match. -/
structure ExpenseMatch where
  repaymentTxnId : String
  repaymentVendor : String
  repaymentDate : Date
  repaymentAmount : ℚ
  cardNumber : String
  expenseTxnId : String
  expenseVendor : String
  expenseDate : Date
  expenseAmount : ℚ
  expenseName : String
  matchConfidence : ℚ
  matchMethod : String
deriving DecidableEq, Repr

/-- `get_card_from_repayment_name`: the first active pairing one of
whose match patterns occurs in the repayment name, yielding its card
account number and vendor. -/
def getCardFromRepaymentName (pairings : List Pairing) (name : String) :
    Option (Option String × String) :=
  ((pairings.filter (fun p => p.isActive)).find? (fun p =>
      p.matchPatterns.any (fun pat => containsSub name pat))).map
    (fun p => (p.creditCardAccountNumber, p.creditCardVendor))

/-- The `NOT IN (SELECT expense_txn_id FROM credit_card_expense_matches
WHERE expense_vendor = ?)` filter against the persisted match table. -/
def notPersisted (persisted : List (String × String)) (ccVendor : String)
    (e : MTxn) : Bool :=
  !(persisted.any (fun m => m.2 = ccVendor && m.1 = e.identifier))

/-- Unmatched card expenses within the trailing `days` days of
`endD` whose amount is within `tol` of `amount` (strict, as in the
SQL `ABS(ABS(price) - ?) < tol`). -/
def nearbyExpenses (txns : List MTxn) (persisted : List (String × String))
    (ccVendor cardNumber : String) (endD : Date) (days : Int) (amount tol : ℚ) :
    List MTxn :=
  txns.filter (fun e =>
    decide (e.vendor = ccVendor) && decide (e.accountNumber = some cardNumber) &&
    decide (e.price < 0) &&
    decide (endD.toRata - days ≤ e.date.toRata) && decide (e.date.toRata ≤ endD.toRata) &&
    decide (|(|e.price|) - amount| < tol) &&
    notPersisted persisted ccVendor e)

/-- `is_sauvage_repayment`: day of month beyond the 15th; or a large
amount (> 1000) with a ±5 expense in the trailing week; or a ±1 expense
in the trailing week.  The existence queries ignore the run-scoped
matched set and the persisted table (`COUNT(*)` with no `NOT IN`). -/
def isSauvageRepayment (txns : List MTxn) (r : MTxn) (cardNumber ccVendor : String) :
    Bool :=
  let amount := |r.price|
  if 15 < r.date.day then true
  else if amount > 1000 &&
      !(nearbyExpenses txns [] ccVendor cardNumber r.date 7 amount 5 = []) then true
  else !(nearbyExpenses txns [] ccVendor cardNumber r.date 7 amount 1 = [])

/-- `check_immediate_payment`: the newest unmatched same-card expense of
the trailing week within ±1 of the repayment amount (`ORDER BY date DESC
LIMIT 1`; SQLite leaves the order of equal dates unspecified).  Note
that only the *persisted* match table is excluded — not the run-scoped
`already_matched_expenses` set. -/
def checkImmediatePayment (txns : List MTxn) (persisted : List (String × String))
    (amount : ℚ) (rDate : Date) (ccVendor cardNumber : String) : Option MTxn :=
  (List.insertionSort (fun a b : MTxn => b.date.toRata < a.date.toRata)
    (nearbyExpenses txns persisted ccVendor cardNumber rDate 7 amount 1)).head?

/-- `get_billing_period`: the full calendar month preceding the
repayment's month (the 23:59:59 end time is a whole-day bound at this
model's day granularity). -/
def getBillingPeriod (rDate : Date) : Date × Date :=
  let billingYear := if rDate.month == 1 then rDate.year - 1 else rDate.year
  let billingMonth := if rDate.month == 1 then (12 : Int) else rDate.month - 1
  (⟨billingYear, billingMonth, 1⟩,
   ⟨billingYear, billingMonth, daysInMonth billingYear billingMonth⟩)

/-- `filter_already_matched`: drop expenses whose `(identifier, vendor)`
key is in the run-scoped matched set. -/
def filterAlreadyMatched (expenses : List MTxn) (already : List (String × String)) :
    List MTxn :=
  expenses.filter (fun e => !(already.any (fun m => m.1 = e.identifier && m.2 = e.vendor)))

/-- Unmatched billing-period expenses, ordered by `(date, name)`
ascending. -/
def billingExpenses (txns : List MTxn) (persisted : List (String × String))
    (ccVendor cardNumber : String) (pStart pEnd : Date) : List MTxn :=
  List.insertionSort
    (fun a b : MTxn =>
      a.date.toRata < b.date.toRata ∨ (a.date.toRata = b.date.toRata ∧ a.name ≤ b.name))
    (txns.filter (fun e =>
      decide (e.vendor = ccVendor) && decide (e.accountNumber = some cardNumber) &&
      decide (e.price < 0) &&
      decide (pStart.toRata ≤ e.date.toRata) && decide (e.date.toRata ≤ pEnd.toRata) &&
      notPersisted persisted ccVendor e))

/-- Unmatched carryover expenses, dated in `[lookStartRata, pStart)`,
ordered by date ascending (`ORDER BY date ASC`; SQLite tie order
unspecified). -/
def carryoverExpenses (txns : List MTxn) (persisted : List (String × String))
    (ccVendor cardNumber : String) (lookStartRata : Int) (pStart : Date) : List MTxn :=
  List.insertionSort (fun a b : MTxn => a.date.toRata < b.date.toRata)
    (txns.filter (fun e =>
      decide (e.vendor = ccVendor) && decide (e.accountNumber = some cardNumber) &&
      decide (e.price < 0) &&
      decide (lookStartRata ≤ e.date.toRata) && decide (e.date.toRata < pStart.toRata) &&
      notPersisted persisted ccVendor e))

/-- Build an `ExpenseMatch` record for repayment `r` on card `card`
from expense `e`. -/
def mkMatch (r : MTxn) (card : String) (e : MTxn) (confidence : ℚ) (method : String) :
    ExpenseMatch :=
  { repaymentTxnId := r.identifier, repaymentVendor := "discount",
    repaymentDate := r.date, repaymentAmount := |r.price|, cardNumber := card,
    expenseTxnId := e.identifier, expenseVendor := e.vendor, expenseDate := e.date,
    expenseAmount := |e.price|, expenseName := e.name,
    matchConfidence := confidence, matchMethod := method }

/-- The greedy chronological accumulation loop shared by the
billing-period and carryover passes: take an expense while the running
sum stays within `amount + tol`, and break once the running sum lands
within `tol` of `amount`.  Returns the matches and the final running
sum. -/
def greedyAccum (r : MTxn) (card : String) (method : String) (amount tol : ℚ) :
    ℚ → List MTxn → List ExpenseMatch × ℚ
  | running, [] => ([], running)
  | running, e :: rest =>
    if running + |e.price| ≤ amount + tol then
      if |running + |e.price| - amount| ≤ tol then
        ([mkMatch r card e 1 method], running + |e.price|)
      else
        (mkMatch r card e 1 method ::
          (greedyAccum r card method amount tol (running + |e.price|) rest).1,
         (greedyAccum r card method amount tol (running + |e.price|) rest).2)
    else greedyAccum r card method amount tol running rest

/-- Steps 2–3 of `match_repayment_to_expenses`: billing-period greedy
matching and, when the unexplained remainder exceeds the tolerance, the
carryover continuation from the billing pass's running sum.  (The
source recomputes `matched_sum` as the sum of the emitted amounts;
with the running sum started at 0 this equals `step2.2` —
`greedyAccum_final_sum` below.) -/
def billingCarryoverMatches (txns : List MTxn)
    (persisted already : List (String × String)) (maxLookbackDays : Int)
    (r : MTxn) (card ccVendor : String) : List ExpenseMatch :=
  let amount := |r.price|
  let period := getBillingPeriod r.date
  let expenses := filterAlreadyMatched
    (billingExpenses txns persisted ccVendor card period.1 period.2) already
  if expenses = [] then []
  else
    let step2 := greedyAccum r card "auto_chronological" amount 2 0 expenses
    if 2 < amount - step2.2 then
      let lookStart := max (period.1.toRata - 90) (r.date.toRata - maxLookbackDays)
      let carry := filterAlreadyMatched
        (carryoverExpenses txns persisted ccVendor card lookStart period.1) already
      if carry = [] then step2.1
      else step2.1 ++ (greedyAccum r card "carryover" amount 2 step2.2 carry).1
    else step2.1

/-- `match_repayment_to_expenses` (the emitted match list; the `stats`
dict is reporting-only and not modelled).  Steps: card identification,
sauvage immediate matching, billing-period greedy matching, carryover
greedy continuation. -/
def matchRepaymentToExpenses (pairings : List Pairing) (txns : List MTxn)
    (persisted : List (String × String)) (already : List (String × String))
    (maxLookbackDays : Int) (r : MTxn) : List ExpenseMatch :=
  match getCardFromRepaymentName pairings r.name with
  | none => []
  | some (acctOpt, ccVendor) =>
    match truthy acctOpt with
    | none => []
    | some card =>
      match (if isSauvageRepayment txns r card ccVendor
             then checkImmediatePayment txns persisted |r.price| r.date ccVendor card
             else none) with
      | some e => [mkMatch r card e 1 "sauvage_payment"]
      | none => billingCarryoverMatches txns persisted already maxLookbackDays r card ccVendor

/-- Is this repayment routed to the sauvage phase by `main`'s split
(`card_number and is_sauvage_repayment(...)`)? -/
def routedSauvage (pairings : List Pairing) (txns : List MTxn) (r : MTxn) : Bool :=
  match getCardFromRepaymentName pairings r.name with
  | some (acctOpt, ccVendor) =>
    match truthy acctOpt with
    | some card => isSauvageRepayment txns r card ccVendor
    | none => false
  | none => false

/-- One `main`-loop step: match a repayment against the run state and
extend the match list and the run-scoped matched-key set. -/
def runStep (pairings : List Pairing) (txns : List MTxn)
    (persisted : List (String × String)) (maxLookbackDays : Int)
    (acc : List ExpenseMatch × List (String × String)) (r : MTxn) :
    List ExpenseMatch × List (String × String) :=
  let ms := matchRepaymentToExpenses pairings txns persisted acc.2 maxLookbackDays r
  (acc.1 ++ ms, acc.2 ++ ms.map (fun m => (m.expenseTxnId, m.expenseVendor)))

/-- `main`'s matching phases over one snapshot: select completed
repayment-category rows from the cutoff on, split into sauvage
(processed smallest-amount-first, 365-day lookback) and monthly
(newest-first, 90-day lookback), and fold the matcher over both phases
threading the run-scoped matched set.  Returns `all_matches`. -/
def runMatcher (pairings : List Pairing) (txns : List MTxn)
    (persisted : List (String × String)) (cutoff : Date) : List ExpenseMatch :=
  let repayments := List.insertionSort (fun a b : MTxn => a.date.toRata < b.date.toRata)
    (txns.filter (fun t =>
      t.isRepaymentCategory && t.statusCompleted &&
      decide (cutoff.toRata ≤ t.date.toRata)))
  let sauvage := List.insertionSort (fun a b : MTxn => |a.price| < |b.price|)
    (repayments.filter (fun r => routedSauvage pairings txns r))
  let monthly := List.insertionSort (fun a b : MTxn => b.date.toRata < a.date.toRata)
    (repayments.filter (fun r => !routedSauvage pairings txns r))
  let st1 := sauvage.foldl (runStep pairings txns persisted 365) ([], [])
  let st2 := monthly.foldl (runStep pairings txns persisted 90) st1
  st2.1

/-! ## Claims -/

/-- Sum of the expense amounts of a match list. -/
def sumAmounts (l : List ExpenseMatch) : ℚ :=
  (l.map (fun m => m.expenseAmount)).sum

theorem sumAmounts_nil : sumAmounts [] = 0 := rfl

theorem sumAmounts_cons (m : ExpenseMatch) (l : List ExpenseMatch) :
    sumAmounts (m :: l) = m.expenseAmount + sumAmounts l := by
  simp [sumAmounts]

theorem sumAmounts_append (a b : List ExpenseMatch) :
    sumAmounts (a ++ b) = sumAmounts a + sumAmounts b := by
  simp [sumAmounts]

/-- Every match emitted by the greedy loop carries the loop's method. -/
theorem greedyAccum_method (r : MTxn) (card method : String) (amount tol : ℚ) :
    ∀ (l : List MTxn) (running : ℚ) (m : ExpenseMatch),
      m ∈ (greedyAccum r card method amount tol running l).1 → m.matchMethod = method := by
  intro l
  induction l with
  | nil => intro running m hm; simp [greedyAccum] at hm
  | cons e rest ih =>
    intro running m hm
    rw [greedyAccum] at hm
    split_ifs at hm with h1 h2
    · simp only [List.mem_singleton] at hm
      subst hm; rfl
    · rcases List.mem_cons.mp hm with rfl | hm'
      · rfl
      · exact ih _ m hm'
    · exact ih _ m hm

/-- Every match emitted by the greedy loop has a nonnegative expense
amount. -/
theorem greedyAccum_amount_nonneg (r : MTxn) (card method : String) (amount tol : ℚ) :
    ∀ (l : List MTxn) (running : ℚ) (m : ExpenseMatch),
      m ∈ (greedyAccum r card method amount tol running l).1 → 0 ≤ m.expenseAmount := by
  intro l
  induction l with
  | nil => intro running m hm; simp [greedyAccum] at hm
  | cons e rest ih =>
    intro running m hm
    rw [greedyAccum] at hm
    split_ifs at hm with h1 h2
    · simp only [List.mem_singleton] at hm
      subst hm; exact abs_nonneg _
    · rcases List.mem_cons.mp hm with rfl | hm'
      · exact abs_nonneg _
      · exact ih _ m hm'
    · exact ih _ m hm

/-- Every prefix of the greedy loop's output keeps the running sum
within `amount + tol`. -/
theorem greedyAccum_prefix_bound (r : MTxn) (card method : String) (amount tol : ℚ) :
    ∀ (l : List MTxn) (running : ℚ), running ≤ amount + tol →
      ∀ n : ℕ,
        running + sumAmounts ((greedyAccum r card method amount tol running l).1.take n) ≤
          amount + tol := by
  intro l
  induction l with
  | nil =>
    intro running hrun n
    simp [greedyAccum, sumAmounts]
    exact hrun
  | cons e rest ih =>
    intro running hrun n
    rw [greedyAccum]
    split_ifs with h1 h2
    · match n with
      | 0 => simpa [sumAmounts] using hrun
      | Nat.succ k =>
        simp only [List.take_succ_cons, List.take_nil, sumAmounts_cons, sumAmounts_nil]
        have : (mkMatch r card e 1 method).expenseAmount = |e.price| := rfl
        rw [this]
        linarith
    · match n with
      | 0 => simpa [sumAmounts] using hrun
      | Nat.succ k =>
        simp only [List.take_succ_cons, sumAmounts_cons]
        have hmk : (mkMatch r card e 1 method).expenseAmount = |e.price| := rfl
        rw [hmk]
        have := ih (running + |e.price|) h1 k
        linarith
    · exact ih running hrun n

/-- The final running sum of the greedy loop is the initial running sum
plus the total of the emitted matches. -/
theorem greedyAccum_final_sum (r : MTxn) (card method : String) (amount tol : ℚ) :
    ∀ (l : List MTxn) (running : ℚ),
      (greedyAccum r card method amount tol running l).2 =
        running + sumAmounts (greedyAccum r card method amount tol running l).1 := by
  intro l
  induction l with
  | nil => intro running; simp [greedyAccum, sumAmounts]
  | cons e rest ih =>
    intro running
    rw [greedyAccum]
    split_ifs with h1 h2
    · simp only [sumAmounts_cons, sumAmounts_nil]
      have : (mkMatch r card e 1 method).expenseAmount = |e.price| := rfl
      rw [this]; ring
    · simp only [sumAmounts_cons]
      have hmk : (mkMatch r card e 1 method).expenseAmount = |e.price| := rfl
      rw [hmk, ih (running + |e.price|)]
      ring
    · exact ih running

/-- Nonnegative-amount lists have nonnegative sums. -/
theorem sumAmounts_nonneg (l : List ExpenseMatch)
    (h : ∀ m ∈ l, 0 ≤ m.expenseAmount) : 0 ≤ sumAmounts l := by
  apply List.sum_nonneg
  intro x hx
  obtain ⟨m, hm, rfl⟩ := List.mem_map.mp hx
  exact h m hm

/-- A prefix of a nonnegative-amount list sums to at most the whole. -/
theorem sumAmounts_take_le (l : List ExpenseMatch) (n : ℕ)
    (h : ∀ m ∈ l, 0 ≤ m.expenseAmount) : sumAmounts (l.take n) ≤ sumAmounts l := by
  conv_rhs => rw [← List.take_append_drop n l]
  rw [sumAmounts_append]
  have hd : 0 ≤ sumAmounts (l.drop n) :=
    sumAmounts_nonneg _ (fun m hm => h m (List.mem_of_mem_drop hm))
  linarith

/-- Every match the billing/carryover pass emits is tagged
`auto_chronological` or `carryover`. -/
theorem billingCarryover_method (txns : List MTxn)
    (persisted already : List (String × String)) (maxLookbackDays : Int)
    (r : MTxn) (card ccVendor : String) (m : ExpenseMatch)
    (hm : m ∈ billingCarryoverMatches txns persisted already maxLookbackDays r card ccVendor) :
    m.matchMethod = "auto_chronological" ∨ m.matchMethod = "carryover" := by
  simp only [billingCarryoverMatches] at hm
  split_ifs at hm with h1 h2 h3
  · simp at hm
  · exact Or.inl (greedyAccum_method _ _ _ _ _ _ _ _ hm)
  · rcases List.mem_append.mp hm with hm' | hm'
    · exact Or.inl (greedyAccum_method _ _ _ _ _ _ _ _ hm')
    · exact Or.inr (greedyAccum_method _ _ _ _ _ _ _ _ hm')
  · exact Or.inl (greedyAccum_method _ _ _ _ _ _ _ _ hm)

/-- Prefix bound for a greedy pass started at running sum 0. -/
theorem greedy_prefix_bound_zero (r : MTxn) (card method : String) (amount tol : ℚ)
    (h0 : 0 ≤ amount + tol) (l : List MTxn) (n : ℕ) :
    sumAmounts ((greedyAccum r card method amount tol 0 l).1.take n) ≤ amount + tol := by
  have := greedyAccum_prefix_bound r card method amount tol l 0 h0 n
  linarith

/-- Prefix bound for a billing pass followed by a carryover pass that
continues from the billing pass\'s final running sum. -/
theorem greedy_concat_prefix_bound (r : MTxn) (card m1 m2 : String) (amount tol : ℚ)
    (h0 : 0 ≤ amount + tol) (l1 l2 : List MTxn) (n : ℕ) :
    sumAmounts (((greedyAccum r card m1 amount tol 0 l1).1 ++
      (greedyAccum r card m2 amount tol
        (greedyAccum r card m1 amount tol 0 l1).2 l2).1).take n) ≤ amount + tol := by
  rw [List.take_append_eq_append_take, sumAmounts_append]
  have hfin : (greedyAccum r card m1 amount tol 0 l1).2 =
      sumAmounts (greedyAccum r card m1 amount tol 0 l1).1 := by
    rw [greedyAccum_final_sum]; ring
  have htak : sumAmounts ((greedyAccum r card m1 amount tol 0 l1).1.take n) ≤
      sumAmounts (greedyAccum r card m1 amount tol 0 l1).1 :=
    sumAmounts_take_le _ n (fun m hm => greedyAccum_amount_nonneg _ _ _ _ _ _ _ _ hm)
  have hs2b : (greedyAccum r card m1 amount tol 0 l1).2 ≤ amount + tol := by
    have h := greedy_prefix_bound_zero r card m1 amount tol h0 l1
      (greedyAccum r card m1 amount tol 0 l1).1.length
    rw [List.take_length] at h
    linarith [hfin]
  have hcar := greedyAccum_prefix_bound r card m2 amount tol l2
    (greedyAccum r card m1 amount tol 0 l1).2 hs2b
    (n - (greedyAccum r card m1 amount tol 0 l1).1.length)
  linarith [hfin, htak]

/-- Prefix bound for the billing/carryover pass: every prefix of its
output sums to at most `|r.price| + 2`. -/
theorem billingCarryover_prefix_bound (txns : List MTxn)
    (persisted already : List (String × String)) (maxLookbackDays : Int)
    (r : MTxn) (card ccVendor : String) (n : ℕ) :
    sumAmounts ((billingCarryoverMatches txns persisted already maxLookbackDays
      r card ccVendor).take n) ≤ |r.price| + 2 := by
  have habs : (0 : ℚ) ≤ |r.price| := abs_nonneg _
  have hinit : (0 : ℚ) ≤ |r.price| + 2 := by linarith
  simp only [billingCarryoverMatches]
  split_ifs with h1 h2 h3
  · simpa [sumAmounts] using hinit
  · exact greedy_prefix_bound_zero r card "auto_chronological" |r.price| 2 hinit _ n
  · exact greedy_concat_prefix_bound r card "auto_chronological" "carryover"
      |r.price| 2 hinit _ _ n
  · exact greedy_prefix_bound_zero r card "auto_chronological" |r.price| 2 hinit _ n

/-- C10: invariant of the Matcher's billing-period and carryover greedy
accumulation (`match_repayment_to_expenses`, steps 2–3): at every point
of the accumulation the running sum of matched expense amounts stays at
most `repayment_amount + 2` (the tolerance), i.e. every prefix of the
emitted non-sauvage match list sums to at most `|r.price| + 2`; the
carryover pass continues from the billing pass's running sum and
preserves the bound. -/
theorem matchRepayment_shape (pairings : List Pairing) (txns : List MTxn)
    (persisted already : List (String × String)) (maxLookbackDays : Int) (r : MTxn) :
    matchRepaymentToExpenses pairings txns persisted already maxLookbackDays r = [] ∨
    (∃ card e, matchRepaymentToExpenses pairings txns persisted already maxLookbackDays r =
      [mkMatch r card e 1 "sauvage_payment"]) ∨
    (∃ card ccVendor,
      matchRepaymentToExpenses pairings txns persisted already maxLookbackDays r =
        billingCarryoverMatches txns persisted already maxLookbackDays r card ccVendor) := by
  unfold matchRepaymentToExpenses
  cases getCardFromRepaymentName pairings r.name with
  | none => exact Or.inl rfl
  | some pr =>
    obtain ⟨acctOpt, ccVendor⟩ := pr
    dsimp only
    cases truthy acctOpt with
    | none => exact Or.inl rfl
    | some card =>
      dsimp only
      cases (if isSauvageRepayment txns r card ccVendor
          then checkImmediatePayment txns persisted |r.price| r.date ccVendor card
          else none) with
      | some e => exact Or.inr (Or.inl ⟨card, e, rfl⟩)
      | none => exact Or.inr (Or.inr ⟨card, ccVendor, rfl⟩)

/-- C10: invariant of the Matcher\'s billing-period and carryover greedy
accumulation (`match_repayment_to_expenses`, steps 2–3): at every point
of the accumulation the running sum of matched expense amounts stays at
most `repayment_amount + 2` (the tolerance), i.e. every prefix of the
emitted non-sauvage match list sums to at most `|r.price| + 2`; the
carryover pass continues from the billing pass\'s running sum and
preserves the bound. -/
theorem C10_greedy_overmatch_tolerance :
    ∀ (pairings : List Pairing) (txns : List MTxn)
      (persisted already : List (String × String)) (maxLookbackDays : Int)
      (r : MTxn) (n : ℕ),
      sumAmounts (((matchRepaymentToExpenses pairings txns persisted already
          maxLookbackDays r).filter
        (fun m => decide (m.matchMethod ≠ "sauvage_payment"))).take n) ≤ |r.price| + 2 := by
  intro pairings txns persisted already maxLookbackDays r n
  have habs : (0 : ℚ) ≤ |r.price| := abs_nonneg _
  rcases matchRepayment_shape pairings txns persisted already maxLookbackDays r with
    h | ⟨card, e, h⟩ | ⟨card, ccVendor, h⟩
  · rw [h]
    simpa [sumAmounts] using by linarith
  · rw [h]
    have : (mkMatch r card e 1 "sauvage_payment").matchMethod = "sauvage_payment" := rfl
    simp only [List.filter_cons, List.filter_nil, this]
    simpa [sumAmounts] using by linarith
  · rw [h]
    have hfix : (billingCarryoverMatches txns persisted already maxLookbackDays
        r card ccVendor).filter
        (fun m => decide (m.matchMethod ≠ "sauvage_payment")) =
        billingCarryoverMatches txns persisted already maxLookbackDays r card ccVendor := by
      apply List.filter_eq_self.mpr
      intro m hm
      rcases billingCarryover_method txns persisted already maxLookbackDays
        r card ccVendor m hm with hmt | hmt <;>
        simp [hmt]
    rw [hfix]
    exact billingCarryover_prefix_bound txns persisted already maxLookbackDays
      r card ccVendor n

/-- C5: In the classifier's grace-period pass (`applyGrace`, the loop
body of `calculate_discrepancy_app` lines 818–832 and the allocator's
inline relabelling, lines 1116–1126), every cycle whose status is
actionable is relabelled `incomplete_history`, regardless of its raw
diff, whenever its date falls within `EARLY_GRACE_DAYS` (14) days of
the card's earliest observed billing activity or within
`RECENT_GRACE_DAYS` (14) days at or before "today"; cycles in
non-actionable statuses are never touched. -/
theorem C5_grace_period_relabel :
    (∀ (earliest : Option Date) (today : Date) (c : Cycle),
      c.status ∈ actionableStatuses →
      ((∃ e, earliest = some e ∧ |c.cycleDate.toRata - e.toRata| ≤ EARLY_GRACE_DAYS) ∨
        (0 ≤ today.toRata - c.cycleDate.toRata ∧
          today.toRata - c.cycleDate.toRata ≤ RECENT_GRACE_DAYS)) →
      (applyGrace earliest today c).status = "incomplete_history") ∧
    (∀ (earliest : Option Date) (today : Date) (c : Cycle),
      c.status ∉ actionableStatuses → applyGrace earliest today c = c) := by
  constructor
  · intro earliest today c hact hcond
    unfold applyGrace
    rw [if_pos hact]
    by_cases hE : earlyGraceHit earliest c.cycleDate = true
    · rw [if_pos hE]
    · rw [if_neg hE]
      rw [if_pos]
      rcases hcond with ⟨e, he, habs⟩ | hrec
      · exfalso
        apply hE
        unfold earlyGraceHit
        rw [he]
        simp only [decide_eq_true_eq]
        exact (abs_le.mp habs).2
      · exact hrec
  · intro earliest today c hact
    unfold applyGrace
    rw [if_neg hact]

/-- Concrete cycle used by the C5 witness (actionable, in grace). -/
def gwCycleFee : Cycle :=
  { cycleDate := ⟨2025, 1, 10⟩, bankTotal := 150, ccTotal := some 100,
    difference := some 50, repayments := [], status := "fee_candidate",
    matchedAccount := none }

/-- Concrete cycle used by the C5 witness (non-actionable). -/
def gwCycleMatched : Cycle :=
  { cycleDate := ⟨2025, 1, 10⟩, bankTotal := 100, ccTotal := some 100,
    difference := some 0, repayments := [], status := "matched",
    matchedAccount := none }

/-- Witness for C5 at concrete inputs. -/
theorem C5_grace_period_relabel_witness :
    (applyGrace (some ⟨2025, 1, 1⟩) ⟨2025, 10, 12⟩ gwCycleFee).status =
      "incomplete_history" ∧
    applyGrace (some ⟨2025, 1, 1⟩) ⟨2025, 10, 12⟩ gwCycleMatched = gwCycleMatched :=
  ⟨C5_grace_period_relabel.1 (some ⟨2025, 1, 1⟩) ⟨2025, 10, 12⟩ gwCycleFee
      (by decide) (Or.inl ⟨⟨2025, 1, 1⟩, rfl, by decide⟩),
    C5_grace_period_relabel.2 (some ⟨2025, 1, 1⟩) ⟨2025, 10, 12⟩ gwCycleMatched
      (by decide)⟩

/-- C9: The Bank-Group Allocator raises a `ValueError` — modelled as
`Except.error`, which carries no partial result, and is raised before
any per-date computation — exactly when its non-empty input list
contains a pairing whose (bank vendor, bank account number) differs
from the first pairing's; with a uniform bank identity it returns a
result. -/
theorem C9_allocator_mixed_identity_error :
    ∀ (bankTxns : List BankTxn) (ccTxns : List CCTxn) (pairings : List Pairing)
      (today : Date) (monthsBack limit : Nat) (p : Pairing) (ps : List Pairing),
      pairings = p :: ps →
      ((∃ q ∈ pairings,
          q.bankVendor ≠ p.bankVendor ∨ q.bankAccountNumber ≠ p.bankAccountNumber) →
        calcBankGroup bankTxns ccTxns pairings today monthsBack limit =
          .error "All pairings in a bank group must share bank_vendor + bank_account_number") ∧
      ((∀ q ∈ pairings,
          q.bankVendor = p.bankVendor ∧ q.bankAccountNumber = p.bankAccountNumber) →
        ∃ r, calcBankGroup bankTxns ccTxns pairings today monthsBack limit = .ok r) := by
  intro bankTxns ccTxns pairings today monthsBack limit p ps hps
  subst hps
  constructor
  · rintro ⟨q, hq, hdif⟩
    unfold calcBankGroup
    dsimp only
    rw [if_pos]
    rcases List.mem_cons.mp hq with rfl | hq'
    · rcases hdif with h | h <;> exact absurd rfl h
    · rw [List.any_eq_true]
      refine ⟨q, hq', ?_⟩
      rcases hdif with h | h
      · simp [h]
      · simp [h]
  · intro hall
    unfold calcBankGroup
    dsimp only
    rw [if_neg]
    · exact ⟨_, rfl⟩
    · rw [List.any_eq_true]
      rintro ⟨q, hq, hpred⟩
      obtain ⟨h1, h2⟩ := hall q (List.mem_cons_of_mem _ hq)
      simp [h1, h2] at hpred

/-- Pairings used by the C9 witness. -/
def c9Pairing1 : Pairing :=
  ⟨1, "visaCal", some "1456", "discount", some "999", [], true, false⟩

/-- Second pairing sharing the bank identity of `c9Pairing1`. -/
def c9Pairing2 : Pairing :=
  ⟨2, "max", some "2222", "discount", some "999", [], true, false⟩

/-- Pairing with a different bank identity. -/
def c9PairingMixed : Pairing :=
  ⟨3, "amex", none, "otherBank", none, [], true, false⟩

/-- Witness for C9 at concrete inputs: a mixed group errors, a uniform
group returns a result. -/
theorem C9_allocator_mixed_identity_error_witness :
    calcBankGroup [] [] [c9Pairing1, c9PairingMixed] ⟨2025, 10, 12⟩ 6 2000 =
      .error "All pairings in a bank group must share bank_vendor + bank_account_number" ∧
    (∃ r, calcBankGroup [] [] [c9Pairing1, c9Pairing2] ⟨2025, 10, 12⟩ 6 2000 = .ok r) :=
  ⟨(C9_allocator_mixed_identity_error [] [] _ ⟨2025, 10, 12⟩ 6 2000 c9Pairing1
      [c9PairingMixed] rfl).1
      ⟨c9PairingMixed, by decide, by decide⟩,
    (C9_allocator_mixed_identity_error [] [] _ ⟨2025, 10, 12⟩ 6 2000 c9Pairing1
      [c9Pairing2] rfl).2 (by decide)⟩

/-- Relation between a cycle's status and its bank−cc difference, as
established by both classifiers. -/
def statusDiffOK (bankTotal : ℚ) (s : String) (q : ℚ) : Prop :=
  (s = "matched" ∧ |bankTotal - q| ≤ EPSILON) ∨
  (s = "fee_candidate" ∧ EPSILON < bankTotal - q ∧ bankTotal - q ≤ MAX_FEE_AMOUNT) ∨
  (s = "large_discrepancy" ∧ MAX_FEE_AMOUNT < bankTotal - q) ∨
  (s = "cc_over_bank" ∧ bankTotal - q < -EPSILON)

/-- Pre-grace consistency of a classified cycle: either no cc total and
`missing_cc_cycle`, or a cc total whose diff matches the status. -/
def cycleOK (c : Cycle) : Prop :=
  (c.ccTotal = none ∧ c.status = "missing_cc_cycle") ∨
  (∃ q, c.ccTotal = some q ∧ statusDiffOK c.bankTotal c.status q)

/-- Invariant of the `cc_rows` classification loop. -/
def loopInv (bankTotal : ℚ) (st : String × Option ℚ × Option String) : Prop :=
  (st.1 = "missing_cc_cycle" ∧ st.2.1 = none) ∨
  (∃ q, st.2.1 = some q ∧
    ((st.1 = "matched" ∧ |bankTotal - q| ≤ EPSILON) ∨
     (st.1 = "fee_candidate" ∧ EPSILON < bankTotal - q ∧ bankTotal - q ≤ MAX_FEE_AMOUNT)))

theorem classifyLoop_inv (bankTotal : ℚ) :
    ∀ (rows : List CCRow) (st : String × Option ℚ × Option String),
      loopInv bankTotal st → loopInv bankTotal (classifyLoop bankTotal st rows) := by
  intro rows
  induction rows with
  | nil => intro st h; simpa [classifyLoop] using h
  | cons r rest ih =>
    intro st h
    rw [classifyLoop]
    split_ifs with h1 h2
    · exact Or.inr ⟨max 0 r.total, rfl, Or.inl ⟨rfl, h1⟩⟩
    · apply ih
      have hpos : (0 : ℚ) < bankTotal - max 0 r.total := by linarith [h2.2.2]
      have habs : |bankTotal - max 0 r.total| = bankTotal - max 0 r.total := abs_of_pos hpos
      refine Or.inr ⟨max 0 r.total, rfl, Or.inr ⟨rfl, ?_, ?_⟩⟩
      · rw [← habs]; exact h2.2.1
      · rw [← habs]; exact h2.1
    · exact ih st h

theorem classifyFallback_ok (bankTotal : ℚ) (ccRows : List CCRow) (acc : String)
    (st : String × Option ℚ × Option String) (hst : loopInv bankTotal st) :
    loopInv bankTotal (classifyFallback bankTotal ccRows acc st) ∨
    (∃ q, (classifyFallback bankTotal ccRows acc st).2.1 = some q ∧
      statusDiffOK bankTotal (classifyFallback bankTotal ccRows acc st).1 q) := by
  unfold classifyFallback
  cases hfind : ccRows.find? (fun r => (r.accountNumber.getD "") = acc) with
  | none => exact Or.inl hst
  | some r =>
    dsimp only
    split_ifs with hc1 hc2 hc3
    · exact Or.inr ⟨max 0 r.total, rfl, Or.inl ⟨rfl, hc1⟩⟩
    · refine Or.inr ⟨max 0 r.total, rfl, Or.inr (Or.inl ⟨rfl, ?_, hc2.2⟩)⟩
      have habs : |bankTotal - max 0 r.total| = bankTotal - max 0 r.total :=
        abs_of_pos hc2.1
      have := not_le.mp hc1
      rw [habs] at this
      exact this
    · exact Or.inr ⟨max 0 r.total, rfl, Or.inr (Or.inr (Or.inl ⟨rfl, hc3⟩))⟩
    · refine Or.inr ⟨max 0 r.total, rfl, Or.inr (Or.inr (Or.inr ⟨rfl, ?_⟩))⟩
      push_neg at hc2 hc3
      rcases le_or_lt (bankTotal - max 0 r.total) 0 with h | h
      · have heps := not_le.mp hc1
        rw [abs_of_nonpos h] at heps
        linarith
      · exact absurd (hc2 h) (not_lt.mpr hc3)

theorem classifyForDate_ok (bankTotal : ℚ) (ccRows : List CCRow)
    (ccAccount : Option String) :
    loopInv bankTotal (classifyForDate bankTotal ccRows ccAccount) ∨
    (∃ q, (classifyForDate bankTotal ccRows ccAccount).2.1 = some q ∧
      statusDiffOK bankTotal (classifyForDate bankTotal ccRows ccAccount).1 q) := by
  have hloop := classifyLoop_inv bankTotal ccRows ("missing_cc_cycle", none, none)
    (Or.inl ⟨rfl, rfl⟩)
  unfold classifyForDate
  split_ifs with hempty hmiss
  · exact Or.inl (Or.inl ⟨rfl, rfl⟩)
  · cases truthy ccAccount with
    | none => exact Or.inl hloop
    | some acc => exact classifyFallback_ok bankTotal ccRows acc _ hloop
  · exact Or.inl hloop

/-- `mkCycle` produces a consistent cycle. -/
theorem mkCycle_ok (ccTxns : List CCTxn) (ccVendor : String) (ccAccount : Option String)
    (dateKey : Date) (bucket : List BankTxn) :
    cycleOK (mkCycle ccTxns ccVendor ccAccount dateKey bucket) := by
  unfold mkCycle cycleOK
  dsimp only
  rcases classifyForDate_ok (bucket.foldl (fun s r => s + |r.price|) 0)
    (ccRowsForDate ccTxns ccVendor ccAccount dateKey) ccAccount with h | h
  · rcases h with ⟨h1, h2⟩ | ⟨q, hq, hd⟩
    · exact Or.inl ⟨h2, h1⟩
    · refine Or.inr ⟨q, hq, ?_⟩
      rcases hd with ⟨hs, hb⟩ | ⟨hs, hb⟩
      · exact Or.inl ⟨hs, hb⟩
      · exact Or.inr (Or.inl ⟨hs, hb⟩)
  · obtain ⟨q, hq, hd⟩ := h
    exact Or.inr ⟨q, hq, hd⟩

/-- `applyGrace` either leaves the cycle unchanged or relabels an
actionable cycle to `incomplete_history`, touching nothing else. -/
theorem applyGrace_cases (e : Option Date) (t : Date) (c : Cycle) :
    applyGrace e t c = c ∨
    (c.status ∈ actionableStatuses ∧
      applyGrace e t c = { c with status := "incomplete_history" }) := by
  unfold applyGrace
  split_ifs with h1 h2 h3
  · exact Or.inr ⟨h1, rfl⟩
  · exact Or.inr ⟨h1, rfl⟩
  · exact Or.inl rfl
  · exact Or.inl rfl

/-- The C1 per-cycle property. -/
def cycleClaimOK (c : Cycle) : Prop :=
  ∀ q, c.ccTotal = some q →
    ((c.status = "matched" ↔ |c.bankTotal - q| ≤ EPSILON) ∧
      (c.status = "fee_candidate" →
        0 < c.bankTotal - q ∧ c.bankTotal - q ≤ MAX_FEE_AMOUNT))

theorem statusDiffOK_not_matched (bankTotal : ℚ) (s : String) (q : ℚ)
    (h : statusDiffOK bankTotal s q) (hs : s ≠ "matched") :
    ¬ |bankTotal - q| ≤ EPSILON := by
  rcases h with ⟨h1, _⟩ | ⟨_, h2, _⟩ | ⟨_, h2⟩ | ⟨_, h2⟩
  · exact absurd h1 hs
  · intro hcon
    have := le_abs_self (bankTotal - q)
    linarith
  · intro hcon
    have := le_abs_self (bankTotal - q)
    unfold EPSILON MAX_FEE_AMOUNT at *
    linarith
  · intro hcon
    have := neg_abs_le (bankTotal - q)
    linarith

theorem cycleOK_claimOK (c : Cycle) (h : cycleOK c) : cycleClaimOK c := by
  intro q hq
  rcases h with ⟨h1, _⟩ | ⟨q', hq', hd⟩
  · rw [h1] at hq; cases hq
  · rw [hq'] at hq
    injection hq with hq
    subst hq
    constructor
    · constructor
      · intro hs
        rcases hd with ⟨_, hb⟩ | ⟨h1, _⟩ | ⟨h1, _⟩ | ⟨h1, _⟩
        · exact hb
        · rw [h1] at hs; exact absurd hs (by decide)
        · rw [h1] at hs; exact absurd hs (by decide)
        · rw [h1] at hs; exact absurd hs (by decide)
      · intro hb
        by_contra hs
        exact statusDiffOK_not_matched _ _ _ hd hs hb
    · intro hs
      rcases hd with ⟨h1, _⟩ | ⟨_, h2, h3⟩ | ⟨h1, _⟩ | ⟨h1, _⟩
      · rw [h1] at hs; exact absurd hs (by decide)
      · unfold EPSILON at h2
        exact ⟨by linarith, h3⟩
      · rw [h1] at hs; exact absurd hs (by decide)
      · rw [h1] at hs; exact absurd hs (by decide)

/-- Grace-relabelling preserves the C1 property of consistent cycles. -/
theorem grace_claimOK (e : Option Date) (t : Date) (c : Cycle) (h : cycleOK c) :
    cycleClaimOK (applyGrace e t c) := by
  rcases applyGrace_cases e t c with heq | ⟨hact, heq⟩
  · rw [heq]; exact cycleOK_claimOK c h
  · rw [heq]
    intro q hq
    dsimp only at hq ⊢
    rcases h with ⟨h1, _⟩ | ⟨q', hq', hd⟩
    · rw [h1] at hq; cases hq
    · rw [hq'] at hq
      injection hq with hq
      subst hq
      have hnm : c.status ≠ "matched" := by
        intro hcon
        rw [hcon] at hact
        exact absurd hact (by decide)
      constructor
      · constructor
        · intro hs; exact absurd hs (by decide)
        · intro hb
          exact absurd hb (statusDiffOK_not_matched _ _ _ hd hnm)
      · intro hs; exact absurd hs (by decide)

/-- Every cycle of the single-pairing classifier is a grace-relabelled
consistent cycle. -/
theorem discCycles_mem (bankTxns : List BankTxn) (ccTxns : List CCTxn)
    (bankVendor : String) (bankAccount : Option String) (ccVendor : String)
    (ccAccount : Option String) (today : Date) (monthsBack limit : ℕ) (c : Cycle)
    (hc : c ∈ discCycles bankTxns ccTxns bankVendor bankAccount ccVendor ccAccount
      today monthsBack limit) :
    ∃ c0, cycleOK c0 ∧
      c = applyGrace (getCCEarliestCycleDate ccTxns ccVendor ccAccount) today c0 := by
  simp only [discCycles] at hc
  obtain ⟨c0, hc0, rfl⟩ := List.mem_map.mp hc
  have hc0' := (List.perm_insertionSort
    (fun a b : Cycle => b.cycleDate.toRata < a.cycleDate.toRata) _).mem_iff.mp hc0
  obtain ⟨b, _, rfl⟩ := List.mem_map.mp hc0'
  exact ⟨_, mkCycle_ok _ _ _ _ _, rfl⟩

/-- C1 property for all cycles of `calculateDiscrepancyApp`. -/
theorem calcDisc_cycles_claim (bankTxns : List BankTxn) (ccTxns : List CCTxn)
    (bankVendor : String) (bankAccount : Option String) (ccVendor : String)
    (ccAccount : Option String) (acknowledged : Bool) (today : Date)
    (monthsBack limit : ℕ) (c : Cycle)
    (hc : c ∈ (calculateDiscrepancyApp bankTxns ccTxns bankVendor bankAccount ccVendor
      ccAccount acknowledged today monthsBack limit).cycles) :
    cycleClaimOK c := by
  unfold calculateDiscrepancyApp at hc
  split_ifs at hc with h1 h2
  · simp at hc
  · simp at hc
  · dsimp only at hc
    obtain ⟨c0, hok, rfl⟩ := discCycles_mem bankTxns ccTxns bankVendor bankAccount
      ccVendor ccAccount today monthsBack limit c hc
    exact grace_claimOK _ _ _ hok

/-- Every cycle the allocator emits is a grace-relabelled consistent
cycle. -/
theorem mkAllocCycle_shape (p : Pairing) (ccTotals : Int → Date → Option ℚ)
    (e : Option Date) (today : Date) (d : Date) (st : AllocState) (c : Cycle)
    (h : mkAllocCycle p ccTotals e today d st = some c) :
    ∃ raw, cycleOK raw ∧ c = applyGrace e today raw := by
  simp only [mkAllocCycle] at h
  split_ifs at h with hbt
  injection h with h
  refine ⟨_, ?_, h.symm⟩
  unfold cycleOK
  cases hcc : ccTotals p.id d with
  | none =>
    dsimp only
    exact Or.inl ⟨rfl, rfl⟩
  | some ccT =>
    dsimp only
    split_ifs with hc1 hc2 hc3
    · exact Or.inr ⟨ccT, rfl, Or.inl ⟨rfl, hc1⟩⟩
    · refine Or.inr ⟨ccT, rfl, Or.inr (Or.inl ⟨rfl, ?_, hc2.2⟩)⟩
      have habs : |lookupTotal st.totals p.id - ccT| = lookupTotal st.totals p.id - ccT :=
        abs_of_pos hc2.1
      have := not_le.mp hc1
      rw [habs] at this
      exact this
    · exact Or.inr ⟨ccT, rfl, Or.inr (Or.inr (Or.inl ⟨rfl, hc3⟩))⟩
    · refine Or.inr ⟨ccT, rfl, Or.inr (Or.inr (Or.inr ⟨rfl, ?_⟩))⟩
      push_neg at hc2 hc3
      rcases le_or_lt (lookupTotal st.totals p.id - ccT) 0 with hle | hlt
      · have heps := not_le.mp hc1
        rw [abs_of_nonpos hle] at heps
        linarith
      · exact absurd (hc2 hlt) (not_lt.mpr hc3)

/-- C1 property for all cycles of every pairing's result in
`calcBankGroup`. -/
theorem calcBankGroup_cycles_claim (bankTxns : List BankTxn) (ccTxns : List CCTxn)
    (pairings : List Pairing) (today : Date) (monthsBack limit : ℕ)
    (res : List (Int × DiscrepancyResult))
    (h : calcBankGroup bankTxns ccTxns pairings today monthsBack limit = .ok res) :
    ∀ pd ∈ res, ∀ c ∈ pd.2.cycles, cycleClaimOK c := by
  intro pd hpd c hc
  cases pairings with
  | nil =>
    simp only [calcBankGroup] at h
    injection h with h
    subst h
    simp at hpd
  | cons p0 rest =>
    simp only [calcBankGroup] at h
    split_ifs at h with hmix
    injection h with h
    subst h
    obtain ⟨p, _, rfl⟩ := List.mem_map.mp hpd
    simp only [allocResultFor] at hc
    have hc' := (List.perm_insertionSort
      (fun a b : Cycle => b.cycleDate.toRata < a.cycleDate.toRata) _).mem_iff.mp hc
    obtain ⟨b, _, hmk⟩ := List.mem_filterMap.mp hc'
    obtain ⟨raw, hok, rfl⟩ := mkAllocCycle_shape _ _ _ _ _ _ _ hmk
    exact grace_claimOK _ _ _ hok

/-- C1: in both the Cycle Discrepancy Classifier
(`calculate_discrepancy_app`) and the per-pairing classification step of
the Bank-Group Allocator (`calculate_discrepancies_app_for_bank_group`),
every returned cycle with a known cc total satisfies: status is
`matched` iff `|bankTotal − ccTotal| ≤ EPSILON` (1.0), and a
`fee_candidate` status implies `0 < bankTotal − ccTotal ≤
MAX_FEE_AMOUNT` (200.0) — also after the grace-period relabelling pass,
which renames only actionable statuses. -/
theorem C1_classification_thresholds :
    (∀ (bankTxns : List BankTxn) (ccTxns : List CCTxn) (bankVendor : String)
      (bankAccount : Option String) (ccVendor : String) (ccAccount : Option String)
      (acknowledged : Bool) (today : Date) (monthsBack limit : ℕ) (c : Cycle),
      c ∈ (calculateDiscrepancyApp bankTxns ccTxns bankVendor bankAccount ccVendor
        ccAccount acknowledged today monthsBack limit).cycles →
      ∀ q, c.ccTotal = some q →
        ((c.status = "matched" ↔ |c.bankTotal - q| ≤ EPSILON) ∧
          (c.status = "fee_candidate" →
            0 < c.bankTotal - q ∧ c.bankTotal - q ≤ MAX_FEE_AMOUNT))) ∧
    (∀ (bankTxns : List BankTxn) (ccTxns : List CCTxn) (pairings : List Pairing)
      (today : Date) (monthsBack limit : ℕ) (res : List (Int × DiscrepancyResult)),
      calcBankGroup bankTxns ccTxns pairings today monthsBack limit = .ok res →
      ∀ pd ∈ res, ∀ c ∈ pd.2.cycles,
        ∀ q, c.ccTotal = some q →
          ((c.status = "matched" ↔ |c.bankTotal - q| ≤ EPSILON) ∧
            (c.status = "fee_candidate" →
              0 < c.bankTotal - q ∧ c.bankTotal - q ≤ MAX_FEE_AMOUNT))) := by
  constructor
  · intro bankTxns ccTxns bankVendor bankAccount ccVendor ccAccount acknowledged
      today monthsBack limit c hc
    exact calcDisc_cycles_claim bankTxns ccTxns bankVendor bankAccount ccVendor
      ccAccount acknowledged today monthsBack limit c hc
  · intro bankTxns ccTxns pairings today monthsBack limit res h pd hpd c hc
    exact calcBankGroup_cycles_claim bankTxns ccTxns pairings today monthsBack limit
      res h pd hpd c hc

/-- The epsilon-match condition of the classification loop for one
billing row. -/
def rowMatchCond (bankTotal : ℚ) (r : CCRow) : Prop :=
  |bankTotal - max 0 r.total| ≤ EPSILON

/-- The fee-candidate condition of the classification loop for one
billing row. -/
def rowFeeCond (bankTotal : ℚ) (r : CCRow) : Prop :=
  |bankTotal - max 0 r.total| ≤ MAX_FEE_AMOUNT ∧
  EPSILON < |bankTotal - max 0 r.total| ∧ max 0 r.total < bankTotal

/-- The loop leaves the cycle `missing_cc_cycle` exactly when it
started there and no row matches within epsilon or as a fee
candidate. -/
theorem classifyLoop_missing_iff (bankTotal : ℚ) :
    ∀ (rows : List CCRow) (st : String × Option ℚ × Option String),
      ((classifyLoop bankTotal st rows).1 = "missing_cc_cycle" ↔
        (st.1 = "missing_cc_cycle" ∧
          ∀ r ∈ rows, ¬ rowMatchCond bankTotal r ∧ ¬ rowFeeCond bankTotal r)) := by
  intro rows
  induction rows with
  | nil =>
    intro st
    simp [classifyLoop]
  | cons r rest ih =>
    intro st
    rw [classifyLoop]
    split_ifs with h1 h2
    · constructor
      · intro hcon
        have hcon' : "matched" = "missing_cc_cycle" := hcon
        exact absurd hcon' (by decide)
      · rintro ⟨_, hall⟩
        exact absurd h1 (hall r (List.mem_cons_self r rest)).1
    · rw [ih]
      constructor
      · rintro ⟨hcon, _⟩
        have hcon' : "fee_candidate" = "missing_cc_cycle" := hcon
        exact absurd hcon' (by decide)
      · rintro ⟨_, hall⟩
        exact absurd h2 (hall r (List.mem_cons_self r rest)).2
    · rw [ih]
      constructor
      · rintro ⟨hst, hall⟩
        refine ⟨hst, ?_⟩
        intro r' hr'
        rcases List.mem_cons.mp hr' with rfl | hr''
        · exact ⟨h1, h2⟩
        · exact hall r' hr''
      · rintro ⟨hst, hall⟩
        exact ⟨hst, fun r' hr' => hall r' (List.mem_cons_of_mem r hr')⟩

/-- At the end of `classifyForDate`, the cc total is absent exactly
when the status is `missing_cc_cycle`. -/
theorem classifyForDate_none_iff (bankTotal : ℚ) (ccRows : List CCRow)
    (ccAccount : Option String) :
    ((classifyForDate bankTotal ccRows ccAccount).2.1 = none ↔
      (classifyForDate bankTotal ccRows ccAccount).1 = "missing_cc_cycle") := by
  rcases classifyForDate_ok bankTotal ccRows ccAccount with h | h
  · rcases h with ⟨h1, h2⟩ | ⟨q, hq, hd⟩
    · simp [h1, h2]
    · rw [hq]
      constructor
      · intro hcon; cases hcon
      · intro hcon
        rcases hd with ⟨hs, _⟩ | ⟨hs, _⟩ <;> rw [hs] at hcon <;> exact absurd hcon (by decide)
  · obtain ⟨q, hq, hd⟩ := h
    rw [hq]
    constructor
    · intro hcon; cases hcon
    · intro hcon
      rcases hd with ⟨hs, _⟩ | ⟨hs, _⟩ | ⟨hs, _⟩ | ⟨hs, _⟩ <;> rw [hs] at hcon <;>
        exact absurd hcon (by decide)

/-- Groups built by the billing-query fold keep a property of the
grouped account numbers. -/
theorem addCCToGroups_account (P : Option String → Prop) :
    ∀ (groups : List CCRow) (t : CCTxn), (∀ g ∈ groups, P g.accountNumber) →
      P t.accountNumber → ∀ g ∈ addCCToGroups groups t, P g.accountNumber := by
  intro groups
  induction groups with
  | nil =>
    intro t _ ht g hg
    rw [addCCToGroups] at hg
    simp only [List.mem_singleton] at hg
    subst hg
    exact ht
  | cons g0 rest ih =>
    intro t hall ht g hg
    rw [addCCToGroups] at hg
    split_ifs at hg with h0
    · rcases List.mem_cons.mp hg with rfl | hg'
      · exact hall g0 (List.mem_cons_self g0 rest)
      · exact hall g (List.mem_cons_of_mem g0 hg')
    · rcases List.mem_cons.mp hg with rfl | hg'
      · exact hall g (List.mem_cons_self g rest)
      · exact ih t (fun g' hg' => hall g' (List.mem_cons_of_mem g0 hg')) ht g hg'

theorem foldl_addCC_account (P : Option String → Prop) :
    ∀ (ts : List CCTxn) (groups : List CCRow), (∀ g ∈ groups, P g.accountNumber) →
      (∀ t ∈ ts, P t.accountNumber) →
      ∀ g ∈ ts.foldl addCCToGroups groups, P g.accountNumber := by
  intro ts
  induction ts with
  | nil => intro groups hg _ g hmem; exact hg g hmem
  | cons t rest ih =>
    intro groups hg ht g hmem
    rw [List.foldl_cons] at hmem
    exact ih (addCCToGroups groups t)
      (addCCToGroups_account P groups t hg (ht t (List.mem_cons_self t rest)))
      (fun t' ht' => ht t' (List.mem_cons_of_mem t ht')) g hmem

/-- When a (truthy) card account number is configured, every billing
group row for a date carries exactly that account number. -/
theorem ccRowsForDate_account (ccTxns : List CCTxn) (ccVendor : String)
    (ccAccount : Option String) (d : Date) (acc : String)
    (hacc : truthy ccAccount = some acc) :
    ∀ r ∈ ccRowsForDate ccTxns ccVendor ccAccount d, r.accountNumber = some acc := by
  apply foldl_addCC_account (fun a => a = some acc) _ _ (by simp)
  intro t ht
  unfold ccTxnsOn at ht
  rw [List.mem_filter] at ht
  have hf := ht.2
  simp only [Bool.and_eq_true] at hf
  have := hf.2
  unfold accountFilter at this
  rw [hacc] at this
  exact of_decide_eq_true this

/-- `classifyForDate` ends `missing_cc_cycle` exactly when either there
are no billing rows, or no account number is configured and no row is
an epsilon match or a fee candidate.  (The account-uniformity
hypothesis holds for the rows the classifier feeds in —
`ccRowsForDate_account`.) -/
theorem classifyForDate_missing_iff (bankTotal : ℚ) (ccRows : List CCRow)
    (ccAccount : Option String)
    (hall : ∀ acc, truthy ccAccount = some acc →
      ∀ r ∈ ccRows, r.accountNumber = some acc) :
    ((classifyForDate bankTotal ccRows ccAccount).1 = "missing_cc_cycle" ↔
      (ccRows = [] ∨ (truthy ccAccount = none ∧
        ∀ r ∈ ccRows, ¬ rowMatchCond bankTotal r ∧ ¬ rowFeeCond bankTotal r))) := by
  unfold classifyForDate
  split_ifs with hempty hmiss
  · simp [hempty]
  · cases htr : truthy ccAccount with
    | none =>
      constructor
      · intro hm
        refine Or.inr ⟨rfl, ?_⟩
        exact ((classifyLoop_missing_iff bankTotal ccRows _).mp hm).2
      · intro _
        exact hmiss
    | some acc =>
      dsimp only
      cases ccRows with
      | nil => exact absurd rfl hempty
      | cons r0 rest =>
        have hr0 : r0.accountNumber = some acc :=
          hall acc htr r0 (List.mem_cons_self r0 rest)
        unfold classifyFallback
        have hfind : List.find?
            (fun r : CCRow => decide ((r.accountNumber.getD "") = acc)) (r0 :: rest) =
            some r0 :=
          List.find?_cons_of_pos rest (by simp [hr0])
        rw [hfind]
        dsimp only
        constructor
        · intro hcon
          split_ifs at hcon with a1 a2 a3
          · have hcon' : "matched" = "missing_cc_cycle" := hcon
            exact absurd hcon' (by decide)
          · have hcon' : "fee_candidate" = "missing_cc_cycle" := hcon
            exact absurd hcon' (by decide)
          · have hcon' : "large_discrepancy" = "missing_cc_cycle" := hcon
            exact absurd hcon' (by decide)
          · have hcon' : "cc_over_bank" = "missing_cc_cycle" := hcon
            exact absurd hcon' (by decide)
        · rintro (hcon | ⟨hcon, _⟩)
          · cases hcon
          · cases hcon
  · constructor
    · intro hcon; exact absurd hcon hmiss
    · rintro (hcon | ⟨_, hcon⟩)
      · exact absurd hcon hempty
      · exact absurd ((classifyLoop_missing_iff bankTotal ccRows _).mpr ⟨rfl, hcon⟩) hmiss

/-- Field-level behaviour of the grace pass: only the status changes,
and the final status is `missing_cc_cycle` exactly when it already was
and neither grace window fires. -/
theorem applyGrace_status (e : Option Date) (t : Date) (c : Cycle) :
    (applyGrace e t c).ccTotal = c.ccTotal ∧
    (applyGrace e t c).cycleDate = c.cycleDate ∧
    (applyGrace e t c).bankTotal = c.bankTotal ∧
    ((applyGrace e t c).status = "missing_cc_cycle" ↔
      (c.status = "missing_cc_cycle" ∧ ¬ (earlyGraceHit e c.cycleDate = true) ∧
        ¬ (0 ≤ t.toRata - c.cycleDate.toRata ∧
          t.toRata - c.cycleDate.toRata ≤ RECENT_GRACE_DAYS))) := by
  unfold applyGrace
  split_ifs with h1 h2 h3
  · refine ⟨rfl, rfl, rfl, ?_⟩
    constructor
    · intro hcon
      have hcon' : "incomplete_history" = "missing_cc_cycle" := hcon
      exact absurd hcon' (by decide)
    · rintro ⟨_, hne, _⟩; exact absurd h2 hne
  · refine ⟨rfl, rfl, rfl, ?_⟩
    constructor
    · intro hcon
      have hcon' : "incomplete_history" = "missing_cc_cycle" := hcon
      exact absurd hcon' (by decide)
    · rintro ⟨_, _, hnr⟩; exact absurd h3 hnr
  · exact ⟨rfl, rfl, rfl, by tauto⟩
  · refine ⟨rfl, rfl, rfl, ?_⟩
    constructor
    · intro hcon
      rw [hcon] at h1
      exact absurd (by decide) h1
    · rintro ⟨hcon, _⟩
      rw [hcon] at h1
      exact absurd (by decide) h1

/-- Placeholder cycle for `List.getD`. -/
def dummyCycle : Cycle := ⟨⟨2000, 1, 1⟩, 0, none, none, [], "", none⟩

/-- Provenance of a classifier cycle: it is the grace-relabelled
classification of some date bucket. -/
theorem calcDisc_cycles_shape (bankTxns : List BankTxn) (ccTxns : List CCTxn)
    (bankVendor : String) (bankAccount : Option String) (ccVendor : String)
    (ccAccount : Option String) (acknowledged : Bool) (today : Date)
    (monthsBack limit : ℕ) (c : Cycle)
    (hc : c ∈ (calculateDiscrepancyApp bankTxns ccTxns bankVendor bankAccount ccVendor
      ccAccount acknowledged today monthsBack limit).cycles) :
    ∃ d bucket,
      c = applyGrace (getCCEarliestCycleDate ccTxns ccVendor ccAccount) today
        (mkCycle ccTxns ccVendor ccAccount d bucket) := by
  unfold calculateDiscrepancyApp at hc
  split_ifs at hc with h1 h2
  · simp at hc
  · simp at hc
  · dsimp only at hc
    simp only [discCycles] at hc
    obtain ⟨c0, hc0, rfl⟩ := List.mem_map.mp hc
    have hc0' := (List.perm_insertionSort
      (fun a b : Cycle => b.cycleDate.toRata < a.cycleDate.toRata) _).mem_iff.mp hc0
    obtain ⟨b, _, rfl⟩ := List.mem_map.mp hc0'
    exact ⟨b.1, b.2, rfl⟩

/-- The absent-total/missing-status characterisation of `mkCycle`. -/
theorem mkCycle_missing (ccTxns : List CCTxn) (ccVendor : String)
    (ccAccount : Option String) (d : Date) (bucket : List BankTxn) :
    ((mkCycle ccTxns ccVendor ccAccount d bucket).ccTotal = none ↔
      (mkCycle ccTxns ccVendor ccAccount d bucket).status = "missing_cc_cycle") ∧
    ((mkCycle ccTxns ccVendor ccAccount d bucket).status = "missing_cc_cycle" ↔
      (ccRowsForDate ccTxns ccVendor ccAccount d = [] ∨
        (truthy ccAccount = none ∧
          ∀ r ∈ ccRowsForDate ccTxns ccVendor ccAccount d,
            ¬ rowMatchCond (mkCycle ccTxns ccVendor ccAccount d bucket).bankTotal r ∧
            ¬ rowFeeCond (mkCycle ccTxns ccVendor ccAccount d bucket).bankTotal r))) := by
  refine ⟨classifyForDate_none_iff _ _ _, classifyForDate_missing_iff _ _ _ ?_⟩
  intro acc htr
  exact ccRowsForDate_account ccTxns ccVendor ccAccount d acc htr

/-- C3 (amended): for every cycle of `calculate_discrepancy_app`, the
cc total is `None` iff either no completed card billing row exists for
the cycle's date (after vendor/account filtering), or no card account
number is configured and no billing group row is an epsilon match or a
fee candidate against the cycle's bank total; and the final status is
`missing_cc_cycle` iff the cc total is `None` and neither grace window
relabelled the cycle. -/
theorem C3_missing_cycle_characterization :
    ∀ (bankTxns : List BankTxn) (ccTxns : List CCTxn) (bankVendor : String)
      (bankAccount : Option String) (ccVendor : String) (ccAccount : Option String)
      (acknowledged : Bool) (today : Date) (monthsBack limit : ℕ) (c : Cycle),
      c ∈ (calculateDiscrepancyApp bankTxns ccTxns bankVendor bankAccount ccVendor
        ccAccount acknowledged today monthsBack limit).cycles →
      ((c.ccTotal = none ↔
        (ccRowsForDate ccTxns ccVendor ccAccount c.cycleDate = [] ∨
          (truthy ccAccount = none ∧
            ∀ r ∈ ccRowsForDate ccTxns ccVendor ccAccount c.cycleDate,
              ¬ rowMatchCond c.bankTotal r ∧ ¬ rowFeeCond c.bankTotal r))) ∧
      (c.status = "missing_cc_cycle" ↔
        (c.ccTotal = none ∧
          ¬ (earlyGraceHit (getCCEarliestCycleDate ccTxns ccVendor ccAccount)
            c.cycleDate = true) ∧
          ¬ (0 ≤ today.toRata - c.cycleDate.toRata ∧
            today.toRata - c.cycleDate.toRata ≤ RECENT_GRACE_DAYS)))) := by
  intro bankTxns ccTxns bankVendor bankAccount ccVendor ccAccount acknowledged today
    monthsBack limit c hc
  obtain ⟨d, bucket, rfl⟩ := calcDisc_cycles_shape bankTxns ccTxns bankVendor
    bankAccount ccVendor ccAccount acknowledged today monthsBack limit c hc
  obtain ⟨hcc, hcd, hbt, hstat⟩ :=
    applyGrace_status (getCCEarliestCycleDate ccTxns ccVendor ccAccount) today
      (mkCycle ccTxns ccVendor ccAccount d bucket)
  obtain ⟨h1, h2⟩ := mkCycle_missing ccTxns ccVendor ccAccount d bucket
  rw [hcc, hcd, hbt]
  constructor
  · have : (mkCycle ccTxns ccVendor ccAccount d bucket).cycleDate = d := rfl
    rw [this]
    exact h1.trans h2
  · rw [hstat]
    constructor
    · rintro ⟨hm, he, hr⟩
      exact ⟨h1.mpr hm, he, hr⟩
    · rintro ⟨hm, he, hr⟩
      exact ⟨h1.mp hm, he, hr⟩

/-- Bank snapshot of the C3/C4 missing-cycle exhibit: one matching bank
repayment of 100 dated 2025-07-01. -/
def mxBank : List BankTxn :=
  [⟨"b1", "discount", some "999", ⟨2025, 7, 1⟩, "cal", -100, true, true⟩]

/-- Card snapshot of the exhibit: billing activity exists on the cycle
date (a 500 charge on 2025-07-01), plus an earlier charge so the early
grace window does not fire. -/
def mxCC : List CCTxn :=
  [ ⟨"visaCal", some "1111", ⟨2025, 5, 1⟩, "groceries", -50, true, false⟩,
    ⟨"visaCal", some "1111", ⟨2025, 7, 1⟩, "stuff", -500, true, false⟩ ]

/-- The classifier result of the exhibit (no card account number is
configured on the pairing). -/
def mxRes : DiscrepancyResult :=
  calculateDiscrepancyApp mxBank mxCC "discount" (some "999") "visaCal" none
    false ⟨2025, 10, 12⟩ 6 500

/-- The single cycle of the exhibit. -/
def mxCycle : Cycle := mxRes.cycles.getD 0 dummyCycle

/-- Counterexample to C3 as stated: on `mxRes`'s cycle the status is
`missing_cc_cycle` and the cc total is `None`, although completed card
billing rows for that exact date do exist — the loop found neither an
epsilon match nor a fee candidate and no card account number was
configured, so the fallback was skipped. -/
theorem C3_counterexample :
    mxCycle ∈ mxRes.cycles ∧ mxCycle.status = "missing_cc_cycle" ∧
    mxCycle.ccTotal = none ∧
    ccTxnsOn mxCC "visaCal" none mxCycle.cycleDate ≠ [] := by
  with_unfolding_all decide

/-- Witness for C3 (amended) at the exhibit input. -/
theorem C3_missing_cycle_characterization_witness :
    ((mxCycle.ccTotal = none ↔
      (ccRowsForDate mxCC "visaCal" none mxCycle.cycleDate = [] ∨
        (truthy none = none ∧
          ∀ r ∈ ccRowsForDate mxCC "visaCal" none mxCycle.cycleDate,
            ¬ rowMatchCond mxCycle.bankTotal r ∧ ¬ rowFeeCond mxCycle.bankTotal r))) ∧
    (mxCycle.status = "missing_cc_cycle" ↔
      (mxCycle.ccTotal = none ∧
        ¬ (earlyGraceHit (getCCEarliestCycleDate mxCC "visaCal" none)
          mxCycle.cycleDate = true) ∧
        ¬ (0 ≤ (⟨2025, 10, 12⟩ : Date).toRata - mxCycle.cycleDate.toRata ∧
          (⟨2025, 10, 12⟩ : Date).toRata - mxCycle.cycleDate.toRata ≤
            RECENT_GRACE_DAYS)))) :=
  C3_missing_cycle_characterization mxBank mxCC "discount" (some "999") "visaCal" none
    false ⟨2025, 10, 12⟩ 6 500 mxCycle (by with_unfolding_all decide)

/-- Under the non-degenerate path, the classifier\'s cycles are
`discCycles`. -/
theorem calcDisc_cycles_eq (bankTxns : List BankTxn) (ccTxns : List CCTxn)
    (bankVendor : String) (bankAccount : Option String) (ccVendor : String)
    (ccAccount : Option String) (acknowledged : Bool) (today : Date)
    (monthsBack limit : ℕ) (h1 : ¬(bankVendor = "" ∨ ccVendor = ""))
    (h2 : ¬ discMatching bankTxns bankVendor bankAccount ccVendor ccAccount
      today monthsBack limit = []) :
    (calculateDiscrepancyApp bankTxns ccTxns bankVendor bankAccount ccVendor
      ccAccount acknowledged today monthsBack limit).cycles =
    discCycles bankTxns ccTxns bankVendor bankAccount ccVendor ccAccount
      today monthsBack limit := by
  simp only [calculateDiscrepancyApp]
  rw [if_neg h1, if_neg h2]

/-- Under the non-degenerate path, the `exists` flag is the actionable
scan over the cycles. -/
theorem calcDisc_flag_eq (bankTxns : List BankTxn) (ccTxns : List CCTxn)
    (bankVendor : String) (bankAccount : Option String) (ccVendor : String)
    (ccAccount : Option String) (acknowledged : Bool) (today : Date)
    (monthsBack limit : ℕ) (h1 : ¬(bankVendor = "" ∨ ccVendor = ""))
    (h2 : ¬ discMatching bankTxns bankVendor bankAccount ccVendor ccAccount
      today monthsBack limit = []) :
    (calculateDiscrepancyApp bankTxns ccTxns bankVendor bankAccount ccVendor
      ccAccount acknowledged today monthsBack limit).existsFlag =
    ((discCycles bankTxns ccTxns bankVendor bankAccount ccVendor ccAccount
      today monthsBack limit).any (fun c => decide (c.status ∈ actionableStatuses)) &&
      !acknowledged) := by
  simp only [calculateDiscrepancyApp]
  rw [if_neg h1, if_neg h2]

/-- C4 (amended): the aggregate block of `calculate_discrepancy_app`,
when present, satisfies: `totalBankRepayments`/`totalCCExpenses` are the
sums over the *comparable* cycles (known cc total and not
`incomplete_history`), `difference` is their difference,
`differencePercentage` is `difference / totalCCExpenses * 100` (0 when
`totalCCExpenses` is 0), and `exists` holds iff some cycle has an
actionable status and the pairing is not acknowledged. -/
theorem C4_aggregate_characterization :
    ∀ (bankTxns : List BankTxn) (ccTxns : List CCTxn) (bankVendor : String)
      (bankAccount : Option String) (ccVendor : String) (ccAccount : Option String)
      (acknowledged : Bool) (today : Date) (monthsBack limit : ℕ) (agg : Aggregate),
      (calculateDiscrepancyApp bankTxns ccTxns bankVendor bankAccount ccVendor
        ccAccount acknowledged today monthsBack limit).aggregate = some agg →
      (agg.totalBankRepayments =
        sumBank (comparableCycles (calculateDiscrepancyApp bankTxns ccTxns bankVendor
          bankAccount ccVendor ccAccount acknowledged today monthsBack limit).cycles) ∧
      agg.totalCCExpenses =
        sumCC (comparableCycles (calculateDiscrepancyApp bankTxns ccTxns bankVendor
          bankAccount ccVendor ccAccount acknowledged today monthsBack limit).cycles) ∧
      agg.difference = agg.totalBankRepayments - agg.totalCCExpenses ∧
      agg.differencePercentage =
        (if 0 < agg.totalCCExpenses then agg.difference / agg.totalCCExpenses * 100
         else 0) ∧
      ((calculateDiscrepancyApp bankTxns ccTxns bankVendor bankAccount ccVendor
          ccAccount acknowledged today monthsBack limit).existsFlag = true ↔
        ((∃ c ∈ (calculateDiscrepancyApp bankTxns ccTxns bankVendor bankAccount ccVendor
          ccAccount acknowledged today monthsBack limit).cycles,
            c.status ∈ actionableStatuses) ∧ acknowledged = false))) := by
  intro bankTxns ccTxns bankVendor bankAccount ccVendor ccAccount acknowledged today
    monthsBack limit agg hagg
  unfold calculateDiscrepancyApp at hagg
  split_ifs at hagg with h1 h2
  dsimp only at hagg
  injection hagg with hagg
  subst hagg
  rw [calcDisc_cycles_eq bankTxns ccTxns bankVendor bankAccount ccVendor ccAccount
      acknowledged today monthsBack limit h1 h2,
    calcDisc_flag_eq bankTxns ccTxns bankVendor bankAccount ccVendor ccAccount
      acknowledged today monthsBack limit h1 h2]
  refine ⟨rfl, rfl, rfl, rfl, ?_⟩
  simp [List.any_eq_true, Bool.and_eq_true, Bool.not_eq_true']

/-- Counterexample to C4 as stated: on the exhibit the single cycle is
`missing_cc_cycle` (not `incomplete_history`) with bank total 100, yet
`totalBankRepayments` is 0 — the aggregation also excludes cycles whose
cc total is `None`, not only `incomplete_history` ones. -/
theorem C4_counterexample :
    mxRes.aggregate = some ⟨0, 0, 0, 0, 0, 1⟩ ∧
    mxCycle.status ≠ "incomplete_history" ∧ mxCycle.bankTotal = 100 ∧
    sumBank (mxRes.cycles.filter
      (fun c => decide (c.status ≠ "incomplete_history"))) = 100 := by
  with_unfolding_all decide

/-- Bank snapshot of the C1 witness. -/
def c1wBank : List BankTxn :=
  [⟨"b1", "discount", some "999", ⟨2025, 9, 1⟩, "cal", -100, true, true⟩]

/-- Card snapshot of the C1 witness. -/
def c1wCC : List CCTxn :=
  [⟨"visaCal", some "1111", ⟨2025, 9, 1⟩, "x", -100, true, false⟩]

/-- The concrete cycle the C1 witness inspects. -/
def c1wCycle : Cycle :=
  ((calculateDiscrepancyApp c1wBank c1wCC "discount" (some "999") "visaCal" none
    false ⟨2025, 10, 12⟩ 6 500).cycles).getD 0 dummyCycle

/-- Pairing group of the C1 witness (allocator part). -/
def c1wPairings : List Pairing :=
  [ ⟨1, "visaCal", some "1456", "discount", some "999", [], true, false⟩,
    ⟨2, "max", some "2222", "discount", some "999", [], true, false⟩ ]

/-- Card snapshot of the C1 witness (allocator part). -/
def c1wACC : List CCTxn :=
  [ ⟨"visaCal", some "1456", ⟨2025, 9, 1⟩, "a", -100, true, false⟩,
    ⟨"max", some "2222", ⟨2025, 9, 1⟩, "b", -200, true, false⟩ ]

/-- Bank snapshot of the C1 witness (allocator part). -/
def c1wABank : List BankTxn :=
  [ ⟨"r1", "discount", some "999", ⟨2025, 9, 1⟩, "cal 1456", -100, true, true⟩,
    ⟨"r2", "discount", some "999", ⟨2025, 9, 1⟩, "מקס", -200, true, true⟩ ]

/-- The allocator result of the C1 witness. -/
def c1wAllocRes : List (Int × DiscrepancyResult) :=
  ((calcBankGroup c1wABank c1wACC c1wPairings ⟨2025, 10, 12⟩ 6 2000).toOption).getD []

/-- The first pairing's entry in `c1wAllocRes`. -/
def c1wAllocPd : Int × DiscrepancyResult :=
  c1wAllocRes.getD 0 (0, ⟨false, false, none, none, []⟩)

/-- The concrete allocator cycle the C1 witness inspects. -/
def c1wAllocCycle : Cycle := c1wAllocPd.2.cycles.getD 0 dummyCycle

/-- Witness for C1 at concrete inputs: a matched cycle of each
classifier. -/
theorem C1_classification_thresholds_witness :
    ((c1wCycle.status = "matched" ↔ |c1wCycle.bankTotal - 100| ≤ EPSILON) ∧
      (c1wCycle.status = "fee_candidate" →
        0 < c1wCycle.bankTotal - 100 ∧ c1wCycle.bankTotal - 100 ≤ MAX_FEE_AMOUNT)) ∧
    ((c1wAllocCycle.status = "matched" ↔ |c1wAllocCycle.bankTotal - 100| ≤ EPSILON) ∧
      (c1wAllocCycle.status = "fee_candidate" →
        0 < c1wAllocCycle.bankTotal - 100 ∧
          c1wAllocCycle.bankTotal - 100 ≤ MAX_FEE_AMOUNT)) :=
  ⟨C1_classification_thresholds.1 c1wBank c1wCC "discount" (some "999") "visaCal" none
      false ⟨2025, 10, 12⟩ 6 500 c1wCycle (by with_unfolding_all decide) 100
      (by with_unfolding_all decide),
    C1_classification_thresholds.2 c1wABank c1wACC c1wPairings ⟨2025, 10, 12⟩ 6 2000
      c1wAllocRes (by with_unfolding_all rfl) c1wAllocPd
      (by with_unfolding_all decide) c1wAllocCycle (by with_unfolding_all decide) 100
      (by with_unfolding_all decide)⟩

/-- The aggregate of the C4 witness input. -/
def c4wAgg : Aggregate :=
  ((calculateDiscrepancyApp c1wBank c1wCC "discount" (some "999") "visaCal" none
    false ⟨2025, 10, 12⟩ 6 500).aggregate).getD ⟨0, 0, 0, 0, 0, 0⟩

/-- Witness for C4 (amended) at a concrete input. -/
theorem C4_aggregate_characterization_witness :
    (c4wAgg.totalBankRepayments =
      sumBank (comparableCycles (calculateDiscrepancyApp c1wBank c1wCC "discount"
        (some "999") "visaCal" none false ⟨2025, 10, 12⟩ 6 500).cycles) ∧
    c4wAgg.totalCCExpenses =
      sumCC (comparableCycles (calculateDiscrepancyApp c1wBank c1wCC "discount"
        (some "999") "visaCal" none false ⟨2025, 10, 12⟩ 6 500).cycles) ∧
    c4wAgg.difference = c4wAgg.totalBankRepayments - c4wAgg.totalCCExpenses ∧
    c4wAgg.differencePercentage =
      (if 0 < c4wAgg.totalCCExpenses then c4wAgg.difference / c4wAgg.totalCCExpenses * 100
       else 0) ∧
    ((calculateDiscrepancyApp c1wBank c1wCC "discount" (some "999") "visaCal" none
        false ⟨2025, 10, 12⟩ 6 500).existsFlag = true ↔
      ((∃ c ∈ (calculateDiscrepancyApp c1wBank c1wCC "discount" (some "999") "visaCal"
        none false ⟨2025, 10, 12⟩ 6 500).cycles, c.status ∈ actionableStatuses) ∧
        false = false))) :=
  C4_aggregate_characterization c1wBank c1wCC "discount" (some "999") "visaCal" none
    false ⟨2025, 10, 12⟩ 6 500 c4wAgg (by with_unfolding_all rfl)

/-- The pairing of the C2 exhibit: an active `visaCal` card repaid from
a `discount` bank account, matched on the pattern `"cal"`. -/
def dmPairing : Pairing :=
  ⟨1, "visaCal", some "1234", "discount", some "999", ["cal"], true, false⟩

/-- The snapshot of the C2 exhibit: one card expense of 499.50 and two
completed sauvage repayments (day 20) of 500 each, both matching the
expense within the ±1 immediate-payment band. -/
def dmTxns : List MTxn :=
  [ ⟨"E1", "visaCal", some "1234", ⟨2025, 10, 18⟩, "store", -499.5, true, false⟩,
    ⟨"R1", "discount", some "999", ⟨2025, 10, 20⟩, "cal repayment a", -500, true, true⟩,
    ⟨"R2", "discount", some "999", ⟨2025, 10, 20⟩, "cal repayment b", -500, true, true⟩ ]

/-- C2 (code bug): `check_immediate_payment` excludes only the
*persisted* match table, never the run-scoped `matched_expenses` set
that `main` threads through the run (and that the other two expense
pools are filtered by via `filter_already_matched`).  Hence on this
snapshot the expense key `("E1", "visaCal")`, although consumed by the
first sauvage repayment, is consumed again by the second: the run emits
two `ExpenseMatch` rows for the same expense key, violating the
run-scoped partition invariant the spec states. -/
theorem C2_sauvage_double_match_bug :
    ((runMatcher [dmPairing] dmTxns [] ⟨2025, 10, 1⟩).filter
      (fun m => decide (m.expenseTxnId = "E1") && decide (m.expenseVendor = "visaCal"))).length = 2 ∧
    (runMatcher [dmPairing] dmTxns [] ⟨2025, 10, 1⟩).length = 2 := by
  constructor <;> with_unfolding_all decide

/-- A sorted list is empty exactly when its source is. -/
theorem insertionSort_eq_nil_iff {α : Type} (r : α → α → Prop) [DecidableRel r]
    (l : List α) : List.insertionSort r l = [] ↔ l = [] := by
  constructor
  · intro h
    have := List.perm_insertionSort r l
    rw [h] at this
    exact (List.perm_nil.mp this.symm).symm ▸ rfl
  · intro h; subst h; rfl

/-- C8: every repayment whose calendar day of month exceeds 15 is
classified sauvage (`is_sauvage_repayment`, criterion 1); and a sauvage
repayment for which an unmatched same-card expense exists in the
trailing 7 days with amount strictly within ±1 of the repayment amount
(the code's `ABS(ABS(price) - ?) < 1.0` band, which is how the spec's
"±1" is implemented) yields exactly one `ExpenseMatch`, with method
`sauvage_payment` and confidence 1.0, ending that repayment's
matching. -/
theorem C8_sauvage_detection_and_match :
    (∀ (txns : List MTxn) (r : MTxn) (cardNumber ccVendor : String),
      15 < r.date.day → isSauvageRepayment txns r cardNumber ccVendor = true) ∧
    (∀ (pairings : List Pairing) (txns : List MTxn)
      (persisted already : List (String × String)) (maxLookbackDays : Int)
      (r : MTxn) (acctOpt : Option String) (ccVendor card : String),
      getCardFromRepaymentName pairings r.name = some (acctOpt, ccVendor) →
      truthy acctOpt = some card →
      isSauvageRepayment txns r card ccVendor = true →
      (∃ e ∈ txns, e.vendor = ccVendor ∧ e.accountNumber = some card ∧ e.price < 0 ∧
        r.date.toRata - 7 ≤ e.date.toRata ∧ e.date.toRata ≤ r.date.toRata ∧
        abs (abs e.price - abs r.price) < 1 ∧ notPersisted persisted ccVendor e = true) →
      ∃ e, matchRepaymentToExpenses pairings txns persisted already maxLookbackDays r =
          [mkMatch r card e 1 "sauvage_payment"] ∧
        (mkMatch r card e 1 "sauvage_payment").matchMethod = "sauvage_payment" ∧
        (mkMatch r card e 1 "sauvage_payment").matchConfidence = 1) := by
  constructor
  · intro txns r cardNumber ccVendor hday
    unfold isSauvageRepayment
    rw [if_pos hday]
  · intro pairings txns persisted already maxLookbackDays r acctOpt ccVendor card
      hcard hacct hsauv hex
    obtain ⟨e0, he0mem, hv, hacc, hneg, hlo, hhi, hband, hnp⟩ := hex
    have hmem : e0 ∈ nearbyExpenses txns persisted ccVendor card r.date 7 |r.price| 1 := by
      unfold nearbyExpenses
      rw [List.mem_filter]
      refine ⟨he0mem, ?_⟩
      simp only [Bool.and_eq_true, decide_eq_true_eq]
      exact ⟨⟨⟨⟨⟨⟨hv, hacc⟩, hneg⟩, hlo⟩, hhi⟩, hband⟩, hnp⟩
    have hne : nearbyExpenses txns persisted ccVendor card r.date 7 |r.price| 1 ≠ [] := by
      intro hcon
      rw [hcon] at hmem
      cases hmem
    have hsortne : List.insertionSort (fun a b : MTxn => b.date.toRata < a.date.toRata)
        (nearbyExpenses txns persisted ccVendor card r.date 7 |r.price| 1) ≠ [] := by
      intro hcon
      exact hne ((insertionSort_eq_nil_iff _ _).mp hcon)
    cases hsort : List.insertionSort (fun a b : MTxn => b.date.toRata < a.date.toRata)
        (nearbyExpenses txns persisted ccVendor card r.date 7 |r.price| 1) with
    | nil => exact absurd hsort hsortne
    | cons e1 rest =>
      have hcheck : checkImmediatePayment txns persisted |r.price| r.date ccVendor card =
          some e1 := by
        unfold checkImmediatePayment
        rw [hsort]
        rfl
      refine ⟨e1, ?_, rfl, rfl⟩
      unfold matchRepaymentToExpenses
      rw [hcard]
      dsimp only
      rw [hacct]
      dsimp only
      rw [if_pos hsauv, hcheck]

/-- The pairing of the C8 witness. -/
def c8wPairing : Pairing :=
  ⟨7, "visaCal", some "1234", "discount", some "999", ["cal"], true, false⟩

/-- Snapshot of the C8 witness: a single 1,199.50 expense six days
before a 1,200.00 repayment dated the 20th. -/
def c8wTxns : List MTxn :=
  [ ⟨"E1", "visaCal", some "1234", ⟨2025, 6, 14⟩, "big purchase", -1199.5, true, false⟩,
    ⟨"R1", "discount", some "999", ⟨2025, 6, 20⟩, "cal payment", -1200, true, true⟩ ]

/-- The repayment of the C8 witness. -/
def c8wRepayment : MTxn :=
  ⟨"R1", "discount", some "999", ⟨2025, 6, 20⟩, "cal payment", -1200, true, true⟩

/-- The expense of the C8 witness. -/
def c8wExpense : MTxn :=
  ⟨"E1", "visaCal", some "1234", ⟨2025, 6, 14⟩, "big purchase", -1199.5, true, false⟩

/-- Witness for C8: the spec's end-to-end example — a repayment dated
the 20th for 1,200.00 with a matching 1,199.50 expense in the prior 7
days is sauvage and produces exactly one `sauvage_payment` match. -/
theorem C8_sauvage_detection_and_match_witness :
    isSauvageRepayment c8wTxns c8wRepayment "1234" "visaCal" = true ∧
    (∃ e, matchRepaymentToExpenses [c8wPairing] c8wTxns [] [] 365 c8wRepayment =
        [mkMatch c8wRepayment "1234" e 1 "sauvage_payment"] ∧
      (mkMatch c8wRepayment "1234" e 1 "sauvage_payment").matchMethod =
        "sauvage_payment" ∧
      (mkMatch c8wRepayment "1234" e 1 "sauvage_payment").matchConfidence = 1) :=
  ⟨C8_sauvage_detection_and_match.1 c8wTxns c8wRepayment "1234" "visaCal" (by decide),
    C8_sauvage_detection_and_match.2 [c8wPairing] c8wTxns [] [] 365 c8wRepayment
      (some "1234") "visaCal" "1234" (by with_unfolding_all decide) (by decide)
      (by with_unfolding_all decide)
      ⟨c8wExpense, by with_unfolding_all decide⟩⟩

/-- In-place key update preserves a successful lookup of the updated key:
the map branch of dictSet replaces the first (and every) entry with key k. -/
theorem find?_setKey_self {α : Type} (k : Int) (v : α) :
    ∀ (l : List (Int × α)), l.any (fun p => p.1 = k) = true →
      (l.map (fun p => if p.1 = k then (k, v) else p)).find? (fun p => p.1 = k) =
        some (k, v) := by
  intro l
  induction l with
  | nil => intro h; cases h
  | cons e rest ih =>
    intro hany
    by_cases he : e.1 = k
    · rw [List.map_cons, if_pos he]
      simp [List.find?_cons]
    · rw [List.map_cons, if_neg he, List.find?_cons_of_neg _ (by simpa using he)]
      apply ih
      rw [List.any_cons] at hany
      simpa [he] using hany

/-- In-place update of key k leaves lookups of any other key unchanged. -/
theorem find?_setKey_other {α : Type} (k : Int) (v : α) (k' : Int) (h : k' ≠ k) :
    ∀ (l : List (Int × α)),
      (l.map (fun p => if p.1 = k then (k, v) else p)).find? (fun p => p.1 = k') =
        l.find? (fun p => p.1 = k') := by
  intro l
  induction l with
  | nil => rfl
  | cons e rest ih =>
    by_cases he : e.1 = k
    · have hk' : ¬ e.1 = k' := by rw [he]; exact fun hc => h hc.symm
      rw [List.map_cons, if_pos he,
        List.find?_cons_of_neg _ (by simpa using Ne.symm h),
        List.find?_cons_of_neg _ (by simpa using hk'), ih]
    · by_cases hk' : e.1 = k'
      · rw [List.map_cons, if_neg he, List.find?_cons_of_pos _ (by simpa using hk'),
          List.find?_cons_of_pos _ (by simpa using hk')]
      · rw [List.map_cons, if_neg he, List.find?_cons_of_neg _ (by simpa using hk'),
          List.find?_cons_of_neg _ (by simpa using hk'), ih]

/-- Looking up the key just set in a dict yields the new value. -/
theorem find?_dictSet_self {α : Type} (l : List (Int × α)) (k : Int) (v : α) :
    (dictSet l k v).find? (fun p => p.1 = k) = some (k, v) := by
  unfold dictSet
  split_ifs with hany
  · exact find?_setKey_self k v l hany
  · have hnone : l.find? (fun p => p.1 = k) = none := by
      apply List.find?_eq_none.mpr
      intro x hx hc
      exact hany (List.any_eq_true.mpr ⟨x, hx, hc⟩)
    rw [List.find?_append, hnone]
    simp [List.find?_cons]

/-- Setting one key leaves lookups of other keys unchanged. -/
theorem find?_dictSet_other {α : Type} (l : List (Int × α)) (k : Int) (v : α)
    (k' : Int) (h : k' ≠ k) :
    (dictSet l k v).find? (fun p => p.1 = k') = l.find? (fun p => p.1 = k') := by
  unfold dictSet
  split_ifs with hany
  · exact find?_setKey_other k v k' h l
  · rw [List.find?_append]
    have hsing : ([(k, v)] : List (Int × α)).find? (fun p => p.1 = k') = none := by
      rw [List.find?_cons_of_neg _ (by simpa using Ne.symm h)]
      rfl
    rw [hsing]
    cases l.find? (fun p => p.1 = k') <;> rfl

theorem lookupTotal_dictSet_self (l : List (Int × ℚ)) (k : Int) (v : ℚ) :
    lookupTotal (dictSet l k v) k = v := by
  unfold lookupTotal
  rw [find?_dictSet_self]

theorem lookupTotal_dictSet_other (l : List (Int × ℚ)) (k : Int) (v : ℚ) (k' : Int)
    (h : k' ≠ k) : lookupTotal (dictSet l k v) k' = lookupTotal l k' := by
  unfold lookupTotal
  rw [find?_dictSet_other _ _ _ _ h]

theorem lookupTxns_dictSet_self (l : List (Int × List BankTxn)) (k : Int)
    (v : List BankTxn) : lookupTxns (dictSet l k v) k = v := by
  unfold lookupTxns
  rw [find?_dictSet_self]

theorem lookupTxns_dictSet_other (l : List (Int × List BankTxn)) (k : Int)
    (v : List BankTxn) (k' : Int) (h : k' ≠ k) :
    lookupTxns (dictSet l k v) k' = lookupTxns l k' := by
  unfold lookupTxns
  rw [find?_dictSet_other _ _ _ _ h]

/-- Sum of the assigned totals over the pairings of a group. -/
def sumTotals (pairings : List Pairing) (totals : List (Int × ℚ)) : ℚ :=
  (pairings.map (fun p => lookupTotal totals p.id)).sum

/-- Concatenation of the assigned transaction lists over the pairings
of a group. -/
def joinedTxns (pairings : List Pairing) (txns : List (Int × List BankTxn)) :
    List BankTxn :=
  (pairings.map (fun p => lookupTxns txns p.id)).flatten

theorem sumTotals_dictSet (pairings : List Pairing) (totals : List (Int × ℚ))
    (q : Pairing) (v : ℚ) :
    ∀ (hq : q ∈ pairings) (hnd : (pairings.map (fun p => p.id)).Nodup),
    sumTotals pairings (dictSet totals q.id v) =
      sumTotals pairings totals - lookupTotal totals q.id + v := by
  induction pairings with
  | nil => intro hq _; cases hq
  | cons p ps ih =>
    intro hq hnd
    rw [List.map_cons, List.nodup_cons] at hnd
    unfold sumTotals at *
    rcases List.mem_cons.mp hq with rfl | hq'
    · rw [List.map_cons, List.map_cons, List.sum_cons, List.sum_cons,
        lookupTotal_dictSet_self]
      have htail : ps.map (fun p => lookupTotal (dictSet totals q.id v) p.id) =
          ps.map (fun p => lookupTotal totals p.id) := by
        apply List.map_congr_left
        intro p' hp'
        apply lookupTotal_dictSet_other
        intro hc
        exact hnd.1 (hc ▸ List.mem_map.mpr ⟨p', hp', rfl⟩)
      rw [htail]
      ring
    · have hne : p.id ≠ q.id := by
        intro hc
        exact hnd.1 (hc ▸ List.mem_map.mpr ⟨q, hq', rfl⟩)
      rw [List.map_cons, List.map_cons, List.sum_cons, List.sum_cons,
        lookupTotal_dictSet_other _ _ _ _ hne, ih hq' hnd.2]
      ring

theorem joinedTxns_dictSet (pairings : List Pairing) (txns : List (Int × List BankTxn))
    (q : Pairing) (r : BankTxn) :
    ∀ (hq : q ∈ pairings) (hnd : (pairings.map (fun p => p.id)).Nodup),
    List.Perm (joinedTxns pairings (dictSet txns q.id (lookupTxns txns q.id ++ [r])))
      (joinedTxns pairings txns ++ [r]) := by
  induction pairings with
  | nil => intro hq _; cases hq
  | cons p ps ih =>
    intro hq hnd
    rw [List.map_cons, List.nodup_cons] at hnd
    unfold joinedTxns at *
    rcases List.mem_cons.mp hq with rfl | hq'
    · rw [List.map_cons, List.map_cons, List.flatten_cons, List.flatten_cons,
        lookupTxns_dictSet_self]
      have htail : ps.map (fun p => lookupTxns (dictSet txns q.id
          (lookupTxns txns q.id ++ [r])) p.id) =
          ps.map (fun p => lookupTxns txns p.id) := by
        apply List.map_congr_left
        intro p' hp'
        apply lookupTxns_dictSet_other
        intro hc
        exact hnd.1 (hc ▸ List.mem_map.mpr ⟨p', hp', rfl⟩)
      rw [htail, List.append_assoc, List.append_assoc]
      exact List.Perm.append_left _ List.perm_append_comm
    · have hne : p.id ≠ q.id := by
        intro hc
        exact hnd.1 (hc ▸ List.mem_map.mpr ⟨q, hq', rfl⟩)
      rw [List.map_cons, List.map_cons, List.flatten_cons, List.flatten_cons,
        lookupTxns_dictSet_other _ _ _ _ hne, List.append_assoc]
      exact List.Perm.append_left _ (ih hq' hnd.2)

/-- The best-completion scan only ever returns one of its candidates. -/
theorem bestCompletion_mem (ccTotals : Int → Date → Option ℚ) (dateKey : Date)
    (totals : List (Int × ℚ)) (amount : ℚ) (b : Pairing) (bd : ℚ) :
    ∀ (cands : List Pairing),
      bestCompletion ccTotals dateKey totals amount cands = some (b, bd) →
        b ∈ cands := by
  intro cands
  induction cands with
  | nil => intro h; cases h
  | cons cand rest ih =>
    intro h
    simp only [bestCompletion] at h
    cases hcc : ccTotals cand.id dateKey with
    | none =>
      rw [hcc] at h
      exact List.mem_cons_of_mem _ (ih h)
    | some ccT =>
      rw [hcc] at h
      dsimp only at h
      cases hacc : bestCompletion ccTotals dateKey totals amount rest with
      | none =>
        rw [hacc] at h
        dsimp only at h
        rw [Option.some.injEq, Prod.mk.injEq] at h
        rw [← h.1]
        exact List.mem_cons_self _ _
      | some p =>
        obtain ⟨b0, bd0⟩ := p
        rw [hacc] at h
        dsimp only at h
        split_ifs at h
        · rw [Option.some.injEq, Prod.mk.injEq] at h
          rw [← h.1]
          exact List.mem_cons_self _ _
        · rw [Option.some.injEq, Prod.mk.injEq] at h
          exact List.mem_cons_of_mem _ (ih (hacc.trans (by rw [h.1, h.2])))

/-- The candidate list handed to the completion scan is always a subset
of the group's pairings. -/
theorem allocCandidates_subset (pairings : List Pairing) (name : String) :
    (allocCandidates pairings name).1 ⊆ pairings := by
  unfold allocCandidates
  dsimp only
  split_ifs
  · exact fun x hx => List.mem_of_mem_filter hx
  · exact fun x hx => List.mem_of_mem_filter hx
  · exact List.Subset.refl _

/-- Invariant of the allocation loop over one date bucket: the per-pairing
running totals absorb exactly the absolute amounts of the processed
repayments that were not parked as unassigned, and the per-pairing
transaction lists together with the unassigned pool are a permutation of
the processed repayments (each repayment sits in exactly one place). -/
def allocInv (pairings : List Pairing) (processed : List BankTxn)
    (st : AllocState) : Prop :=
  sumTotals pairings st.totals =
      (processed.map (fun r => |r.price|)).sum -
        (st.unassigned.map (fun r => |r.price|)).sum ∧
  List.Perm (joinedTxns pairings st.txns ++ st.unassigned) processed

theorem allocInv_unassign (pairings : List Pairing) (processed : List BankTxn)
    (st : AllocState) (r : BankTxn) (h : allocInv pairings processed st) :
    allocInv pairings (processed ++ [r])
      { st with unassigned := st.unassigned ++ [r] } := by
  constructor
  · dsimp only
    rw [List.map_append, List.sum_append, List.map_append, List.sum_append, h.1]
    ring
  · dsimp only
    rw [← List.append_assoc]
    exact List.Perm.append_right [r] h.2

theorem allocInv_assign (pairings : List Pairing) (processed : List BankTxn)
    (st : AllocState) (r : BankTxn) (b : Pairing) (hb : b ∈ pairings)
    (hnd : (pairings.map (fun p => p.id)).Nodup)
    (h : allocInv pairings processed st) :
    allocInv pairings (processed ++ [r])
      { st with
        totals := dictSet st.totals b.id (lookupTotal st.totals b.id + |r.price|),
        txns := dictSet st.txns b.id (lookupTxns st.txns b.id ++ [r]) } := by
  constructor
  · dsimp only
    rw [sumTotals_dictSet pairings st.totals b _ hb hnd, h.1, List.map_append,
      List.sum_append, List.map_cons, List.map_nil, List.sum_cons, List.sum_nil]
    ring
  · dsimp only
    have h1 := List.Perm.append_right st.unassigned
      (joinedTxns_dictSet pairings st.txns b r hb hnd)
    have h2 : List.Perm ((joinedTxns pairings st.txns ++ [r]) ++ st.unassigned)
        ((joinedTxns pairings st.txns ++ st.unassigned) ++ [r]) := by
      rw [List.append_assoc, List.append_assoc]
      exact List.Perm.append_left _ List.perm_append_comm
    exact (h1.trans h2).trans (List.Perm.append_right [r] h.2)

/-- One allocation step preserves the bucket invariant: the repayment
either lands in exactly one pairing's dicts or in the unassigned pool. -/
theorem allocStep_inv (pairings : List Pairing) (ccTotals : Int → Date → Option ℚ)
    (dateKey : Date) (hnd : (pairings.map (fun p => p.id)).Nodup)
    (processed : List BankTxn) (st : AllocState) (r : BankTxn)
    (h : allocInv pairings processed st) :
    allocInv pairings (processed ++ [r]) (allocStep pairings ccTotals dateKey st r) := by
  simp only [allocStep]
  cases hbc : bestCompletion ccTotals dateKey st.totals (|r.price|)
      (allocCandidates pairings r.name).1 with
  | none =>
    dsimp only
    split_ifs with hc
    · exact allocInv_unassign _ _ _ _ h
    · cases hcs : (allocCandidates pairings r.name).1 with
      | nil => exact allocInv_unassign _ _ _ _ h
      | cons c rest =>
        dsimp only
        exact allocInv_assign _ _ _ _ c
          (allocCandidates_subset pairings r.name (hcs ▸ List.mem_cons_self c rest))
          hnd h
  | some p =>
    obtain ⟨b, bd⟩ := p
    dsimp only
    split_ifs with hc
    · exact allocInv_unassign _ _ _ _ h
    · exact allocInv_assign _ _ _ _ b
        (allocCandidates_subset pairings r.name
          (bestCompletion_mem ccTotals dateKey st.totals (|r.price|) b bd _ hbc))
        hnd h

theorem allocFold_inv (pairings : List Pairing) (ccTotals : Int → Date → Option ℚ)
    (dateKey : Date) (hnd : (pairings.map (fun p => p.id)).Nodup) :
    ∀ (rs : List BankTxn) (processed : List BankTxn) (st : AllocState),
      allocInv pairings processed st →
      allocInv pairings (processed ++ rs)
        (rs.foldl (allocStep pairings ccTotals dateKey) st) := by
  intro rs
  induction rs with
  | nil => intro processed st h; simpa using h
  | cons r rest ih =>
    intro processed st h
    rw [List.foldl_cons]
    have hstep := ih (processed ++ [r]) _
      (allocStep_inv pairings ccTotals dateKey hnd processed st r h)
    simpa [List.append_assoc] using hstep

theorem lookupTotal_init (ps : List Pairing) :
    ∀ (d : List (Int × ℚ)) (k : Int), lookupTotal d k = 0 →
      lookupTotal (ps.foldl (fun d p => dictSet d p.id (0 : ℚ)) d) k = 0 := by
  induction ps with
  | nil => intro d k h; exact h
  | cons p ps ih =>
    intro d k h
    rw [List.foldl_cons]
    apply ih
    by_cases hk : k = p.id
    · rw [hk, lookupTotal_dictSet_self]
    · rw [lookupTotal_dictSet_other _ _ _ _ hk, h]

theorem lookupTxns_init (ps : List Pairing) :
    ∀ (d : List (Int × List BankTxn)) (k : Int), lookupTxns d k = [] →
      lookupTxns (ps.foldl (fun d p => dictSet d p.id ([] : List BankTxn)) d) k = [] := by
  induction ps with
  | nil => intro d k h; exact h
  | cons p ps ih =>
    intro d k h
    rw [List.foldl_cons]
    apply ih
    by_cases hk : k = p.id
    · rw [hk, lookupTxns_dictSet_self]
    · rw [lookupTxns_dictSet_other _ _ _ _ hk, h]

theorem flatten_map_nil {β : Type} (l : List β) :
    (l.map (fun _ => ([] : List BankTxn))).flatten = [] := by
  induction l with
  | nil => rfl
  | cons x xs ih => rw [List.map_cons, List.flatten_cons, List.nil_append, ih]

/-- The zero-initialised per-pairing dicts satisfy the invariant with no
repayment processed. -/
theorem allocInv_init (pairings : List Pairing) :
    allocInv pairings []
      ⟨pairings.foldl (fun d p => dictSet d p.id (0 : ℚ)) [],
       pairings.foldl (fun d p => dictSet d p.id ([] : List BankTxn)) [], []⟩ := by
  constructor
  · unfold sumTotals
    dsimp only
    have hmap : pairings.map (fun p =>
        lookupTotal (pairings.foldl (fun d p => dictSet d p.id (0 : ℚ)) []) p.id) =
        pairings.map (fun _ => (0 : ℚ)) :=
      List.map_congr_left (fun p _ => lookupTotal_init pairings [] p.id rfl)
    rw [hmap]
    simp
  · unfold joinedTxns
    dsimp only
    have hmap : pairings.map (fun p =>
        lookupTxns (pairings.foldl (fun d p => dictSet d p.id ([] : List BankTxn)) []) p.id) =
        pairings.map (fun _ => ([] : List BankTxn)) :=
      List.map_congr_left (fun p _ => lookupTxns_init pairings [] p.id rfl)
    rw [hmap, flatten_map_nil, List.append_nil]

theorem allocateDate_inv (pairings : List Pairing) (ccTotals : Int → Date → Option ℚ)
    (dateKey : Date) (repayments : List BankTxn)
    (hnd : (pairings.map (fun p => p.id)).Nodup) :
    allocInv pairings
      (List.insertionSort (fun a b : BankTxn => |b.price| < |a.price|) repayments)
      (allocateDate pairings ccTotals dateKey repayments) := by
  unfold allocateDate
  dsimp only
  have hfold := allocFold_inv pairings ccTotals dateKey hnd
    (List.insertionSort (fun a b : BankTxn => |b.price| < |a.price|) repayments)
    [] _ (allocInv_init pairings)
  simpa using hfold

/-- C6: for every repayment date bucket processed by the bank-group
allocator (pairing ids distinct, as they are database primary keys),
the sum over all pairings of the assigned bank totals equals the sum of
absolute amounts of all repayments of the bucket minus the sum of
absolute amounts of the unassigned ones; and the per-pairing assigned
transaction lists together with the unassigned pool form a permutation
of the bucket's repayments, so each repayment is assigned to exactly
one pairing or left unassigned, never to two. -/
theorem C6_allocation_partition (pairings : List Pairing)
    (ccTotals : Int → Date → Option ℚ) (dateKey : Date) (repayments : List BankTxn)
    (hnd : (pairings.map (fun p => p.id)).Nodup) :
    sumTotals pairings (allocateDate pairings ccTotals dateKey repayments).totals =
        (repayments.map (fun r => |r.price|)).sum -
          ((allocateDate pairings ccTotals dateKey repayments).unassigned.map
            (fun r => |r.price|)).sum ∧
    List.Perm
      (joinedTxns pairings (allocateDate pairings ccTotals dateKey repayments).txns ++
        (allocateDate pairings ccTotals dateKey repayments).unassigned)
      repayments := by
  have hinv := allocateDate_inv pairings ccTotals dateKey repayments hnd
  have hperm : List.Perm
      (List.insertionSort (fun a b : BankTxn => |b.price| < |a.price|) repayments)
      repayments := List.perm_insertionSort _ _
  constructor
  · rw [hinv.1, (hperm.map (fun r => |r.price|)).sum_eq]
  · exact hinv.2.trans hperm

def c6wPairings : List Pairing :=
  [⟨1, "visaCal", some "1111", "discount", some "999", ["cal"], true, false⟩,
   ⟨2, "max", some "2222", "discount", some "999", ["מקס"], true, false⟩]

def c6wDate : Date := ⟨2025, 9, 1⟩

def c6wCC : Int → Date → Option ℚ := fun _ _ => none

def c6wReps : List BankTxn :=
  [⟨"r1", "discount", some "999", ⟨2025, 9, 1⟩, "cal 1111", -100, true, true⟩,
   ⟨"r2", "discount", some "999", ⟨2025, 9, 1⟩, "מקס", -200, true, true⟩]

theorem C6_allocation_partition_witness :
    ((c6wPairings.map (fun p => p.id)).Nodup) ∧
    (sumTotals c6wPairings (allocateDate c6wPairings c6wCC c6wDate c6wReps).totals =
        (c6wReps.map (fun r => |r.price|)).sum -
          ((allocateDate c6wPairings c6wCC c6wDate c6wReps).unassigned.map
            (fun r => |r.price|)).sum ∧
      List.Perm
        (joinedTxns c6wPairings (allocateDate c6wPairings c6wCC c6wDate c6wReps).txns ++
          (allocateDate c6wPairings c6wCC c6wDate c6wReps).unassigned)
        c6wReps) :=
  ⟨by decide, C6_allocation_partition c6wPairings c6wCC c6wDate c6wReps (by decide)⟩

/-- Match-pattern list as the spec words it: the vendor keywords, plus
the account number, plus its last-4, deduplicated keeping first
occurrences.  This definition follows the spec's wording and serves
as the refinement target for `buildMatchPatterns`, which was
translated from the source. -/
def specMatchPatterns (ccVendor : String) (ccAccount : Option String) : List String :=
  dedupNonEmpty []
    (vendorKeywords ccVendor ++
      (match truthy ccAccount with
       | none => []
       | some acc => [acc]) ++
      (match truthy ccAccount with
       | none => []
       | some acc =>
         match getAccountLast4 (some acc) with
         | some l4 => [l4]
         | none => []))

/-- First-seen deduplication is insensitive to an immediate duplicate
of the final element. -/
theorem dedupNonEmpty_dup_last (a : String) :
    ∀ (xs : List String) (seen : List String),
      dedupNonEmpty seen (xs ++ [a, a]) = dedupNonEmpty seen (xs ++ [a]) := by
  intro xs
  induction xs with
  | nil =>
    intro seen
    simp only [List.nil_append, dedupNonEmpty]
    split_ifs with h1 h2 h3
    · rfl
    · rfl
    · rfl
    · exact absurd (by simp : (a :: seen).contains a = true) h3
  | cons x rest ih =>
    intro seen
    simp only [List.cons_append, dedupNonEmpty]
    split_ifs
    · exact ih seen
    · exact ih seen
    · exact congrArg (List.cons x) (ih (x :: seen))

/-- The source's match-pattern list coincides with the spec's wording:
the explicit "only when distinct" guard on the last-4 is subsumed by
the deduplication. -/
theorem buildMatchPatterns_eq_spec (ccVendor : String) (ccAccount : Option String) :
    buildMatchPatterns ccVendor ccAccount = specMatchPatterns ccVendor ccAccount := by
  unfold buildMatchPatterns specMatchPatterns
  cases htr : truthy ccAccount with
  | none => simp
  | some acc =>
    dsimp only
    cases hl4 : getAccountLast4 (some acc) with
    | none => simp
    | some l4 =>
      dsimp only
      by_cases he : l4 = acc
      · rw [if_neg (by simp [he]), he, List.append_assoc]
        exact (dedupNonEmpty_dup_last acc (vendorKeywords ccVendor) []).symm
      · rw [if_pos he, List.append_assoc]
        rfl

/-- C7: the bank-account discoverer (given the required card vendor)
keeps exactly the groups with last-4 or vendor evidence, ranks them in
descending lexicographic `(last4-count, vendor-count, transaction
count)` order, reports not-found with a readable reason when there are
no repayment rows or no surviving group, and otherwise returns the
top-ranked group — maximal among all candidates — with at most two
runner-ups and match patterns equal to the spec's
keywords-plus-account-plus-last4 list, deduplicated first-seen. -/
theorem C7_discoverer_behaviour (ccVendor : String) (ccAccount : Option String)
    (rows : List BankRow) (hv : ccVendor ≠ "") :
    (∀ g, g ∈ discCandidates (getAccountLast4 ccAccount) ccVendor rows ↔
        g ∈ discGroups (getAccountLast4 ccAccount) ccVendor rows ∧
          (0 < g.matchingLast4Count ∨ 0 < g.matchingVendorCount)) ∧
    List.Sorted rankGE (discRanked (getAccountLast4 ccAccount) ccVendor rows) ∧
    List.Perm (discRanked (getAccountLast4 ccAccount) ccVendor rows)
      (discCandidates (getAccountLast4 ccAccount) ccVendor rows) ∧
    (rows = [] →
      findBestBankAccountApp ccVendor ccAccount rows =
        .ok (.notFound "No bank repayment transactions found")) ∧
    (rows ≠ [] → discRanked (getAccountLast4 ccAccount) ccVendor rows = [] →
      findBestBankAccountApp ccVendor ccAccount rows =
        .ok (.notFound ("No bank repayments reference this credit card (last4: " ++
          (match getAccountLast4 ccAccount with
           | some s => s
           | none => "unknown") ++ ")"))) ∧
    (∀ best restRanked,
      discRanked (getAccountLast4 ccAccount) ccVendor rows = best :: restRanked →
      rows ≠ [] →
      (findBestBankAccountApp ccVendor ccAccount rows =
        .ok (.found best.bankVendor best.bankAccountNumber
          best.transactions.length best.matchingLast4Count best.matchingVendorCount
          (specMatchPatterns ccVendor ccAccount)
          (sampleTxns (getAccountLast4 ccAccount) ccVendor best.transactions)
          ((restRanked.take 2).map
            (fun c => (c.bankVendor, c.bankAccountNumber, c.transactions.length))))) ∧
      ((restRanked.take 2).map
        (fun c => (c.bankVendor, c.bankAccountNumber, c.transactions.length))).length ≤ 2 ∧
      (∀ c ∈ discCandidates (getAccountLast4 ccAccount) ccVendor rows,
        lexLe3 (groupKey c) (groupKey best))) := by
  refine ⟨?_, ?_, ?_, ?_, ?_, ?_⟩
  · intro g
    simp [discCandidates, List.mem_filter]
  · exact List.sorted_insertionSort rankGE _
  · exact List.perm_insertionSort rankGE _
  · intro hrows
    subst hrows
    unfold findBestBankAccountApp
    rw [if_neg hv]
    dsimp only
    rw [if_pos rfl]
  · intro hrows hranked
    unfold findBestBankAccountApp
    rw [if_neg hv]
    dsimp only
    rw [if_neg hrows, hranked]
  · intro best restRanked hranked hrows
    refine ⟨?_, ?_, ?_⟩
    · unfold findBestBankAccountApp
      rw [if_neg hv]
      dsimp only
      rw [if_neg hrows, hranked]
      dsimp only
      rw [buildMatchPatterns_eq_spec]
    · rw [List.length_map]
      exact le_trans (Nat.le_of_eq (List.length_take _ _)) (Nat.min_le_left _ _)
    · intro c hc
      have hmem : c ∈ discRanked (getAccountLast4 ccAccount) ccVendor rows :=
        (List.perm_insertionSort rankGE _).symm.subset hc
      rw [hranked] at hmem
      have hsorted : List.Sorted rankGE (best :: restRanked) := by
        rw [← hranked]
        exact List.sorted_insertionSort rankGE _
      rcases List.mem_cons.mp hmem with rfl | hmem'
      · unfold lexLe3
        omega
      · exact (List.sorted_cons.mp hsorted).1 c hmem'

def c7wRows : List BankRow :=
  [⟨"b1", "discount", some "999", "cal 1234", -100, "2025-09-01"⟩,
   ⟨"b2", "discount", some "999", "groceries", -50, "2025-09-02"⟩,
   ⟨"b3", "leumi", some "777", "transfer", -80, "2025-09-03"⟩]

theorem C7_discoverer_behaviour_witness :
    ("visaCal" ≠ "") ∧
    ((∀ g, g ∈ discCandidates (getAccountLast4 (some "1234")) "visaCal" c7wRows ↔
        g ∈ discGroups (getAccountLast4 (some "1234")) "visaCal" c7wRows ∧
          (0 < g.matchingLast4Count ∨ 0 < g.matchingVendorCount)) ∧
    List.Sorted rankGE (discRanked (getAccountLast4 (some "1234")) "visaCal" c7wRows) ∧
    List.Perm (discRanked (getAccountLast4 (some "1234")) "visaCal" c7wRows)
      (discCandidates (getAccountLast4 (some "1234")) "visaCal" c7wRows) ∧
    (c7wRows = [] →
      findBestBankAccountApp "visaCal" (some "1234") c7wRows =
        .ok (.notFound "No bank repayment transactions found")) ∧
    (c7wRows ≠ [] → discRanked (getAccountLast4 (some "1234")) "visaCal" c7wRows = [] →
      findBestBankAccountApp "visaCal" (some "1234") c7wRows =
        .ok (.notFound ("No bank repayments reference this credit card (last4: " ++
          (match getAccountLast4 (some "1234") with
           | some s => s
           | none => "unknown") ++ ")"))) ∧
    (∀ best restRanked,
      discRanked (getAccountLast4 (some "1234")) "visaCal" c7wRows = best :: restRanked →
      c7wRows ≠ [] →
      (findBestBankAccountApp "visaCal" (some "1234") c7wRows =
        .ok (.found best.bankVendor best.bankAccountNumber
          best.transactions.length best.matchingLast4Count best.matchingVendorCount
          (specMatchPatterns "visaCal" (some "1234"))
          (sampleTxns (getAccountLast4 (some "1234")) "visaCal" best.transactions)
          ((restRanked.take 2).map
            (fun c => (c.bankVendor, c.bankAccountNumber, c.transactions.length))))) ∧
      ((restRanked.take 2).map
        (fun c => (c.bankVendor, c.bankAccountNumber, c.transactions.length))).length ≤ 2 ∧
      (∀ c ∈ discCandidates (getAccountLast4 (some "1234")) "visaCal" c7wRows,
        lexLe3 (groupKey c) (groupKey best)))) :=
  ⟨by decide, C7_discoverer_behaviour "visaCal" (some "1234") c7wRows (by decide)⟩

end ShekelSync
